import Mathlib

/-!
# Tubely video upload pipeline

A shallow embedding of `handlerUploadVideo` (src/handler_video_meta.go) and of
`getVideoAspectRatio` / `processVideoForFastStart` (src/video_utils.go).

External collaborators (the metadata store, the object store, the multipart
parser, the two external tools, the random source, the standard-library MIME
parser) are not part of the repository.  Their results are supplied by an
`Env` record: the handler is a straight-line function with no loops, so every
collaborator is called at most once per run and one recorded answer per call
is enough.  The handler threads an explicit `World` (the set of temporary
files on disk and the ordered log of side effects) and a stack of deferred
actions that is run, last registered first, on every return.

The geometry classification computes in `float64`.  Its arithmetic is embedded
exactly: finite values are rationals and every operation rounds the exact
result to 53 significant bits, ties to even.
-/

namespace Tubely

/-! ## HTTP status codes (net/http constants) -/

def StatusOK : Nat := 200
def StatusBadRequest : Nat := 400
def StatusUnauthorized : Nat := 401
def StatusForbidden : Nat := 403
def StatusInternalServerError : Nat := 500

/-! ## Data model -/

/-- A `uuid.UUID`, kept as its 128-bit value. -/
structure UUID where
  val : Nat
  deriving DecidableEq, Repr

/-- The `database.Video` fields the upload handler reads or writes. -/
structure Video where
  ID : UUID
  UserID : UUID
  VideoURL : Option String
  deriving DecidableEq, Repr

/-- One entry of `FFProbeOutput.Streams`: the JSON decoder leaves a missing
`width` / `height` at the zero value. -/
structure Stream where
  Width : Int
  Height : Int
  deriving DecidableEq, Repr

/-- The decoded probe document (`FFProbeOutput`, video_utils.go lines 11-16). -/
structure FFProbeOutput where
  Streams : List Stream
  deriving DecidableEq, Repr

/-- What running the probe tool and decoding its output produced. -/
inductive ProbeResult where
  | runFailed
  | decodeFailed
  | decoded (out : FFProbeOutput)
  deriving DecidableEq, Repr

/-- The fields of `apiConfig` the upload handler uses. -/
structure Config where
  s3Bucket : String
  cloudFrontDomain : String
  deriving DecidableEq, Repr

/-- The request as the handler sees it. -/
structure Request where
  videoIDStr : String
  ctxUserID : Option String
  deriving DecidableEq, Repr

/-- Answers of the external collaborators during one run of the handler:
`uuid.Parse`, `db.GetVideo`, `ParseMultipartForm`, `FormFile` (the declared
`Content-Type` of the part), the first `Read` of the part (the bytes read, or
`none` for an error other than EOF), `http.DetectContentType`, `Seek`,
`mime.ParseMediaType`, `os.CreateTemp` (the name of the new file), `io.Copy`,
`tempFile.Seek`, the transcoder (whether it created its output file, whether it
exited with success), `os.Open`, the probe, the random source behind
`rand.Read` (the bytes it supplies, `none` when it fails), `PutObject` and
`db.UpdateVideo`. -/
structure Env where
  uuidParse : String → Option UUID
  getVideo : UUID → Option Video
  parseMultipartFormOK : Bool
  formFileContentType : Option String
  readHead : Option (List Nat)
  detectContentType : List Nat → String
  seekOK : Bool
  parseMediaType : String → Option String
  createTemp : Option String
  copyOK : Bool
  tempSeekOK : Bool
  ffmpegWritesOutput : Bool
  ffmpegOK : Bool
  openOK : Bool
  probe : ProbeResult
  randRead : Option (List Nat)
  putObjectOK : Bool
  updateVideoOK : Bool

/-- Side effects of a run, in the order they happen. -/
inductive Event where
  | createTemp (path : Option String)
  | copyToTemp (path : String) (ok : Bool)
  | transcode (input output : String) (ok : Bool)
  | openFile (path : String) (ok : Bool)
  | probe (path : String)
  | putObject (bucket key contentType : String) (ok : Bool)
  | updateVideo (video : Video) (ok : Bool)
  | remove (path : String)
  deriving DecidableEq, Repr

/-- The temporary files present on disk and the log of side effects so far. -/
structure World where
  fs : List String
  trace : List Event
  deriving DecidableEq, Repr

/-- A deferred call registered with `defer`. -/
inductive Deferred where
  | closeFile
  | remove (path : String)
  deriving DecidableEq, Repr

/-- The response body: an error message or the updated video record. -/
inductive Body where
  | error (msg : String)
  | video (v : Video)
  deriving DecidableEq, Repr

/-- What a run of the handler leaves behind. -/
structure Outcome where
  world : World
  status : Nat
  body : Body
  deriving DecidableEq, Repr

def World.log (w : World) (e : Event) : World :=
  { w with trace := w.trace ++ [e] }

def World.addFile (w : World) (path : String) : World :=
  { w with fs := path :: w.fs }

/-- Whether a file is on disk at `path`. -/
def World.fileExists (w : World) (path : String) : Bool := decide (path ∈ w.fs)

/-- The call `os.Remove(path)`: the file is gone afterwards. -/
def World.remove (w : World) (path : String) : World :=
  { fs := w.fs.filter (fun p => p ≠ path), trace := w.trace ++ [Event.remove path] }

/-- Run the deferred calls; the head of the list is the last one registered. -/
def runDeferred (w : World) : List Deferred → World
  | [] => w
  | Deferred.closeFile :: ds => runDeferred w ds
  | Deferred.remove p :: ds => runDeferred (w.remove p) ds

/-- The helper `respondWithError` followed by `return`. -/
def respondWithError (w : World) (defers : List Deferred) (code : Nat) (msg : String) : Outcome :=
  { world := runDeferred w defers, status := code, body := Body.error msg }

/-- The helper `respondWithJSON` followed by the end of the handler. -/
def respondWithJSON (w : World) (defers : List Deferred) (code : Nat) (v : Video) : Outcome :=
  { world := runDeferred w defers, status := code, body := Body.video v }

/-! ## IEEE-754 binary64 arithmetic

`float64` values are kept exactly: a finite value is the rational it denotes.
Every operation computes the exact rational result and rounds it to 53
significant bits, ties to even (`rnd`).  The exponent range is not bounded:
for operands that come from 64-bit integers every quotient and reciprocal has
magnitude between 2^-64 and 2^64, far inside the normal range of binary64, so
neither overflow nor gradual underflow can occur in `classifyGeometry`. -/

/-- Nearest integer to `N / D`, ties to the even neighbour. -/
def roundHalfEven (N D : Nat) : Nat :=
  if 2 * (N % D) < D then N / D
  else if D < 2 * (N % D) then N / D + 1
  else if (N / D) % 2 = 0 then N / D else N / D + 1

/-- Number of halvings needed to bring `n` below 2, at most `fuel` of them. -/
def log2Fuel : Nat → Nat → Nat
  | 0, _ => 0
  | fuel + 1, n => if 2 ≤ n then log2Fuel fuel (n / 2) + 1 else 0

/-- The position of the leading bit of `n`, that is ⌊log₂ n⌋ (0 for `n = 0`). -/
def ilog2 (n : Nat) : Nat := log2Fuel n n

/-- The binary exponent of `n / d`: the `e` with `2^e ≤ n / d < 2^(e+1)`. -/
def binExp (n d : Nat) : Int :=
  if ilog2 d ≤ ilog2 n then
    if 2 ^ (ilog2 n - ilog2 d) * d ≤ n then ((ilog2 n - ilog2 d : Nat) : Int)
    else ((ilog2 n - ilog2 d : Nat) : Int) - 1
  else
    if d ≤ n * 2 ^ (ilog2 d - ilog2 n) then -((ilog2 d - ilog2 n : Nat) : Int)
    else -((ilog2 d - ilog2 n : Nat) : Int) - 1

/-- Round the positive rational `n / d` to 53 significant bits, ties to even. -/
def roundPos (n d : Nat) : ℚ :=
  let s : Int := binExp n d - 52
  (roundHalfEven (n * 2 ^ (-s).toNat) (d * 2 ^ s.toNat) : ℚ) * (2 : ℚ) ^ s

/-- Round an exact rational result to the nearest binary64 value. -/
def rnd (q : ℚ) : ℚ :=
  if q = 0 then 0
  else if 0 < q then roundPos q.num.natAbs q.den
  else -roundPos q.num.natAbs q.den

/-- A `float64`: a finite value (`fin 0` is +0), the negative zero, an
infinity with its sign, or a NaN. -/
inductive F64 where
  | fin (q : ℚ)
  | negZero
  | inf (neg : Bool)
  | nan
  deriving DecidableEq, Repr

namespace F64

/-- The rational a finite `float64` denotes (0 for the zeros). -/
def val : F64 → ℚ
  | fin q => q
  | _ => 0

/-- The sign bit. -/
def isNeg : F64 → Bool
  | fin q => decide (q < 0)
  | negZero => true
  | inf neg => neg
  | nan => false

def signedZero (neg : Bool) : F64 := if neg then negZero else fin 0

/-- The conversion `float64(i)` of an `int`. -/
def ofInt (i : Int) : F64 := fin (rnd (i : ℚ))

/-- A floating-point constant given by its exact decimal or rational value. -/
def ofRat (q : ℚ) : F64 := fin (rnd q)

/-- The `float64` quotient `x / y`; dividing by a zero gives an infinity or NaN. -/
def div (x y : F64) : F64 :=
  match x, y with
  | nan, _ => nan
  | _, nan => nan
  | inf _, inf _ => nan
  | inf s, y => inf (xor s y.isNeg)
  | x, inf s => signedZero (xor x.isNeg s)
  | x, y =>
    if y.val = 0 then
      if x.val = 0 then nan else inf (xor x.isNeg y.isNeg)
    else if x.val = 0 then signedZero (xor x.isNeg y.isNeg)
    else fin (rnd (x.val / y.val))

/-- The `float64` difference `x - y`. -/
def sub (x y : F64) : F64 :=
  match x, y with
  | nan, _ => nan
  | _, nan => nan
  | inf s, inf t => if s = t then nan else inf s
  | inf s, _ => inf s
  | _, inf t => inf (!t)
  | x, y =>
    if x.val - y.val = 0 then signedZero (x.isNeg && !y.isNeg)
    else fin (rnd (x.val - y.val))

/-- The `float64` sum `x + y`. -/
def add (x y : F64) : F64 :=
  match x, y with
  | nan, _ => nan
  | _, nan => nan
  | inf s, inf t => if s = t then inf s else nan
  | inf s, _ => inf s
  | _, inf t => inf t
  | x, y =>
    if x.val + y.val = 0 then signedZero (x.isNeg && y.isNeg)
    else fin (rnd (x.val + y.val))

/-- The comparison `x <= y`; any comparison with a NaN is false. -/
def le (x y : F64) : Bool :=
  match x, y with
  | nan, _ => false
  | _, nan => false
  | inf true, _ => true
  | _, inf false => true
  | inf false, _ => false
  | _, inf true => false
  | x, y => decide (x.val ≤ y.val)

/-- The comparison `x >= y`. -/
def ge (x y : F64) : Bool := le y x

/-- Whether the value is one of the two zeros. -/
def isZero : F64 → Bool
  | fin q => decide (q = 0)
  | negZero => true
  | _ => false

end F64

/-! ## Geometry classification (video_utils.go lines 37-54) -/

/-- The classification together with the runtime `float64` divisions that
were evaluated to reach it, as (dividend, divisor) pairs in evaluation order. -/
structure Geometry where
  label : String
  divisions : List (F64 × F64)
  deriving DecidableEq, Repr

/-- The variable `target169 := 16.0 / 9.0`: the constant quotient is exact and
is rounded once when it becomes a `float64`. -/
def target169 : F64 := F64.ofRat (16 / 9)

/-- The variable `tolerance := 0.1`. -/
def tolerance : F64 := F64.ofRat (1 / 10)

/-- The constant `1.0`. -/
def one : F64 := F64.ofRat 1

/-- The value of `target169 - tolerance`, the lower threshold. -/
def loQ : ℚ := 7556039374810498 / 2 ^ 52

/-- The value of `target169 + tolerance`, the upper threshold. -/
def hiQ : ℚ := 8456759300284598 / 2 ^ 52

/-- Lines 37-54 of `getVideoAspectRatio`: from `height == 0` to the last
`return`.  In `a && b` the operand `b` is evaluated only when `a` is true. -/
def classifyGeometry (width height : Int) : Geometry :=
  if height = 0 then { label := "other", divisions := [] }
  else
    let w := F64.ofInt width
    let h := F64.ofInt height
    let aspectRatio := F64.div w h
    if F64.ge aspectRatio (F64.sub target169 tolerance)
        && F64.le aspectRatio (F64.add target169 tolerance) then
      { label := "landscape", divisions := [(w, h)] }
    else if F64.ge (F64.div one aspectRatio) (F64.sub target169 tolerance) then
      if F64.le (F64.div one aspectRatio) (F64.add target169 tolerance) then
        { label := "portrait", divisions := [(w, h), (one, aspectRatio), (one, aspectRatio)] }
      else
        { label := "other", divisions := [(w, h), (one, aspectRatio), (one, aspectRatio)] }
    else
      { label := "other", divisions := [(w, h), (one, aspectRatio)] }

/-- The function `getVideoAspectRatio`, given what running the probe tool on
the file and decoding its output produced. -/
def getVideoAspectRatio (probe : ProbeResult) : Except String String :=
  match probe with
  | ProbeResult.runFailed => Except.error "exec: ffprobe failed"
  | ProbeResult.decodeFailed => Except.error "json: cannot unmarshal"
  | ProbeResult.decoded result =>
    match result.Streams with
    | [] => Except.error "no video streams found"
    | s :: _ => Except.ok (classifyGeometry s.Width s.Height).label

/-! ## Storage key derivation (handler_video_meta.go lines 304-311) -/

/-- The alphabet of `base64.URLEncoding` (RFC 4648, section 5). -/
def encodeURL : List Char :=
  "ABCDEFGHIJKLMNOPQRSTUVWXYZabcdefghijklmnopqrstuvwxyz0123456789-_".toList

/-- The character for a 6-bit value. -/
def b64Char (v : Nat) : Char := encodeURL.getD (v % 64) 'A'

/-- The encoder `base64.RawURLEncoding.EncodeToString`: three bytes give four
characters; a remainder of one byte gives two characters and a remainder of
two bytes gives three, with no padding character. -/
def rawURLEncode : List Nat → List Char
  | [] => []
  | [a] =>
    let v := (a % 256) * 65536
    [b64Char (v / 262144), b64Char (v / 4096)]
  | [a, b] =>
    let v := (a % 256) * 65536 + (b % 256) * 256
    [b64Char (v / 262144), b64Char (v / 4096), b64Char (v / 64)]
  | a :: b :: c :: rest =>
    let v := (a % 256) * 65536 + (b % 256) * 256 + c % 256
    b64Char (v / 262144) :: b64Char (v / 4096) :: b64Char (v / 64) :: b64Char v
      :: rawURLEncode rest

/-- The buffer `make([]byte, n)`: `n` zero bytes. -/
def makeBytes (n : Nat) : List Nat := List.replicate n 0

/-- The call `rand.Read(b)` on the buffer `b`, given the bytes the random
source supplies (`none` when the source fails).  It returns no error only when
it has filled the whole buffer; the buffer then holds the first `len(b)` bytes
of the source. -/
def randReadInto (b : List Nat) (source : Option (List Nat)) : Option (List Nat) :=
  match source with
  | none => none
  | some bytes => if bytes.length < b.length then none else some (bytes.take b.length)

/-- The variable `fileKeyBase`. -/
def fileKeyBase (randomBytes : List Nat) : String := String.mk (rawURLEncode randomBytes)

/-- The key `fmt.Sprintf("%s/%s.mp4", prefix, fileKeyBase)`. -/
def fileKey (pfx : String) (randomBytes : List Nat) : String :=
  pfx ++ "/" ++ fileKeyBase randomBytes ++ ".mp4"

/-- The URL `fmt.Sprintf("https://%s/%s", cfg.cloudFrontDomain, fileKey)`. -/
def videoURL (cfg : Config) (key : String) : String :=
  "https://" ++ cfg.cloudFrontDomain ++ "/" ++ key

/-! ## The upload handler (handler_video_meta.go lines 186-334) -/

/-- Lines 248-251: the media type the handler goes on with, from the declared
`Content-Type` of the form part and the type detected from its first bytes. -/
def effectiveMediaType (contentType detectedType : String) : String :=
  if contentType = "" ∨ contentType = "application/octet-stream" then detectedType
  else contentType

/-- Lines 253-262: the media-type check.  `none` lets the request through, a
status and a message reject it.  `parseMediaType` is `mime.ParseMediaType`
(`none` when it returns an error). -/
def checkMediaType (parseMediaType : String → Option String) (mediaType : String) :
    Option (Nat × String) :=
  match parseMediaType mediaType with
  | none => some (StatusBadRequest, "Invalid media type")
  | some parsedMediaType =>
    if parsedMediaType ≠ "video/mp4" then some (StatusBadRequest, "Video must be an MP4")
    else none

/-- The function `processVideoForFastStart`: run the transcoder on `filePath`
with output path `filePath + ".processing"`.  The tool may have created its
output file whether or not it exits with success. -/
def processVideoForFastStart (env : Env) (w : World) (filePath : String) :
    World × Option String :=
  let outputPath := filePath ++ ".processing"
  let w1 := if env.ffmpegWritesOutput then w.addFile outputPath else w
  let w2 := w1.log (Event.transcode filePath outputPath env.ffmpegOK)
  if env.ffmpegOK then (w2, some outputPath) else (w2, none)

/-- The body of `handlerUploadVideo` from `os.CreateTemp` (line 264) on. -/
def uploadFromStaging (cfg : Config) (env : Env) (w0 : World) (video : Video)
    (mediaType : String) : Outcome :=
  let defers0 := [Deferred.closeFile]
  match env.createTemp with
  | none =>
    respondWithError (w0.log (Event.createTemp none)) defers0 StatusInternalServerError
      "Couldn't create temp file"
  | some tempName =>
    let w1 := (w0.addFile tempName).log (Event.createTemp (some tempName))
    let defers1 := Deferred.remove tempName :: defers0
    let w2 := w1.log (Event.copyToTemp tempName env.copyOK)
    if !env.copyOK then
      respondWithError w2 defers1 StatusInternalServerError "Failed to write video to temp file"
    else if !env.tempSeekOK then
      respondWithError w2 defers1 StatusInternalServerError "Failed to seek temp file"
    else
      match processVideoForFastStart env w2 tempName with
      | (w3, none) =>
        respondWithError w3 defers1 StatusInternalServerError
          "Failed to process video for fast start"
      | (w3, some processedPath) =>
        let defers2 := Deferred.remove processedPath :: defers1
        let opened := w3.fileExists processedPath && env.openOK
        let w4 := w3.log (Event.openFile processedPath opened)
        if !opened then
          respondWithError w4 defers2 StatusInternalServerError "Failed to open processed file"
        else
          let defers3 := Deferred.closeFile :: defers2
          let w5 := w4.log (Event.probe processedPath)
          match getVideoAspectRatio env.probe with
          | Except.error _ =>
            respondWithError w5 defers3 StatusInternalServerError
              "Failed to determine aspect ratio"
          | Except.ok pfx =>
            let randomBytes := makeBytes 32
            match randReadInto randomBytes env.randRead with
            | none =>
              respondWithError w5 defers3 StatusInternalServerError
                "Couldn't generate random key"
            | some randomBytes =>
              let key := fileKey pfx randomBytes
              let w6 := w5.log (Event.putObject cfg.s3Bucket key mediaType env.putObjectOK)
              if !env.putObjectOK then
                respondWithError w6 defers3 StatusInternalServerError
                  "Failed to upload video to S3"
              else
                let video1 := { video with VideoURL := some (videoURL cfg key) }
                let w7 := w6.log (Event.updateVideo video1 env.updateVideoOK)
                if !env.updateVideoOK then
                  respondWithError w7 defers3 StatusInternalServerError "Couldn't update video"
                else
                  respondWithJSON w7 defers3 StatusOK video1

/-- The method `handlerUploadVideo`, run in the world `w0`.  The 1 GiB
`http.MaxBytesReader` of line 187 only makes `ParseMultipartForm` fail on a
larger body, which is the answer `parseMultipartFormOK = false`. -/
def handlerUploadVideo (cfg : Config) (env : Env) (r : Request) (w0 : World) : Outcome :=
  match env.uuidParse r.videoIDStr with
  | none => respondWithError w0 [] StatusBadRequest "Invalid video ID"
  | some videoID =>
    match r.ctxUserID with
    | none => respondWithError w0 [] StatusInternalServerError "Couldn't find userID in context"
    | some userIDStr =>
      match env.uuidParse userIDStr with
      | none => respondWithError w0 [] StatusInternalServerError "Invalid userID format"
      | some userID =>
        match env.getVideo videoID with
        | none => respondWithError w0 [] StatusInternalServerError "Couldn't find video"
        | some video =>
          if video.UserID ≠ userID then
            respondWithError w0 [] StatusUnauthorized "You don't own this video"
          else if !env.parseMultipartFormOK then
            respondWithError w0 [] StatusBadRequest "Unable to parse form"
          else
            match env.formFileContentType with
            | none => respondWithError w0 [] StatusBadRequest "Missing video file"
            | some contentType =>
              let defers0 := [Deferred.closeFile]
              match env.readHead with
              | none =>
                respondWithError w0 defers0 StatusInternalServerError
                  "Failed to read file for MIME detection"
              | some head =>
                let detectedType := env.detectContentType head
                if !env.seekOK then
                  respondWithError w0 defers0 StatusInternalServerError "Failed to seek file"
                else
                  let mediaType := effectiveMediaType contentType detectedType
                  match checkMediaType env.parseMediaType mediaType with
                  | some (code, msg) => respondWithError w0 defers0 code msg
                  | none => uploadFromStaging cfg env w0 video mediaType

/-! ## Object key extraction in the delete handler (handler_video_meta.go lines 98-102) -/

/-- The pieces of a text between the occurrences of `sep`; a text without
`sep`, the empty text included, is a single piece. -/
def splitChar (sep : Char) : List Char → List (List Char)
  | [] => [[]]
  | c :: cs =>
    if c = sep then [] :: splitChar sep cs
    else
      match splitChar sep cs with
      | [] => [[c]]
      | p :: ps => (c :: p) :: ps

/-- The function `strings.Split(s, sep)` for a separator of one character. -/
def stringsSplit (s : String) (sep : Char) : List String :=
  (splitChar sep s.data).map String.mk

/-- The function `strings.Join(elems, sep)`. -/
def stringsJoin : List String → String → String
  | [], _ => ""
  | [a], _ => a
  | a :: b :: rest, sep => a ++ sep ++ stringsJoin (b :: rest) sep

/-- Lines 98-102 of `handlerVideoMetaDelete`: the key of the object the handler
asks the object store to delete, from the record's `VideoURL`; `none` when no
delete is issued. -/
def deleteObjectKey (videoURL : Option String) : Option String :=
  match videoURL with
  | none => none
  | some url =>
    if url ≠ "" then
      let parts := stringsSplit url '/'
      if parts.length ≥ 4 then some (stringsJoin (parts.drop 3) "/") else none
    else none

/-! ## Sample runs -/

/-- A parser instance for sample runs: a bare `type/subtype` value without
parameters parses to itself, the empty string is an error. -/
def sampleParseMediaType (v : String) : Option String :=
  if v = "" then none else some v

/-- A run in which every collaborator succeeds: user `u1` owns video `v1`,
the part is declared `video/mp4`, the probe reports one 1920x1080 stream. -/
def sampleEnv : Env where
  uuidParse := fun s =>
    if s = "v1" then some ⟨1⟩ else if s = "u1" then some ⟨7⟩
    else if s = "u2" then some ⟨8⟩ else none
  getVideo := fun id => if id = ⟨1⟩ then some ⟨⟨1⟩, ⟨7⟩, none⟩ else none
  parseMultipartFormOK := true
  formFileContentType := some "video/mp4"
  readHead := some [0, 0, 0, 32, 102, 116, 121, 112]
  detectContentType := fun _ => "video/mp4"
  seekOK := true
  parseMediaType := sampleParseMediaType
  createTemp := some "/tmp/tubely-upload-1.mp4"
  copyOK := true
  tempSeekOK := true
  ffmpegWritesOutput := true
  ffmpegOK := true
  openOK := true
  probe := ProbeResult.decoded ⟨[⟨1920, 1080⟩]⟩
  randRead := some (List.replicate 32 0)
  putObjectOK := true
  updateVideoOK := true

def sampleConfig : Config := { s3Bucket := "tubely", cloudFrontDomain := "d1.example.net" }

/-- The owner `u1` uploads to `v1`. -/
def ownerRequest : Request := { videoIDStr := "v1", ctxUserID := some "u1" }

/-- Another authenticated user, `u2`, uploads to `v1`. -/
def strangerRequest : Request := { videoIDStr := "v1", ctxUserID := some "u2" }

/-- The transcoder creates its output file and then exits with a failure. -/
def transcoderFailsEnv : Env := { sampleEnv with ffmpegOK := false }

/-- The sample run with a random source that supplies 34 bytes, of which the
32-byte buffer takes the first 32. -/
def variedBytesEnv : Env :=
  { sampleEnv with
    randRead := some [251, 255, 190, 11, 48, 85, 122, 159, 196, 233, 14, 51, 88, 125, 162, 199,
      236, 17, 54, 91, 128, 165, 202, 239, 20, 57, 94, 131, 168, 205, 242, 23, 7, 7] }

/-- The probe runs and its output decodes, but it reports no stream. -/
def noStreamsEnv : Env := { sampleEnv with probe := ProbeResult.decoded ⟨[]⟩ }

/-- A world with no temporary files and an empty log. -/
def emptyWorld : World := { fs := [], trace := [] }

/-! ## Ownership check -/

/-- C1 (the code answers 401 where the claim says 403): when the caller identity
differs from the owner of the resolved video record, `handlerUploadVideo`
responds with status 401 Unauthorized, which is not 403 Forbidden, and leaves
the world as it found it: no temp file is created, neither tool is run, no
object is put and the record is not updated. -/
theorem handlerUploadVideo_owner_mismatch (cfg : Config) (env : Env) (r : Request)
    (w0 : World) (videoID userID : UUID) (userIDStr : String) (video : Video)
    (hvid : env.uuidParse r.videoIDStr = some videoID)
    (hctx : r.ctxUserID = some userIDStr)
    (huid : env.uuidParse userIDStr = some userID)
    (hget : env.getVideo videoID = some video)
    (hown : video.UserID ≠ userID) :
    (handlerUploadVideo cfg env r w0).status = StatusUnauthorized ∧
      (handlerUploadVideo cfg env r w0).status ≠ StatusForbidden ∧
      (handlerUploadVideo cfg env r w0).world = w0 := by
  unfold handlerUploadVideo
  simp only [hvid, hctx, huid, hget]
  simp [hown, respondWithError, runDeferred, StatusUnauthorized, StatusForbidden]

/-- The stranger `u2` uploading to the video of `u1` gets 401 and nothing happens. -/
theorem handlerUploadVideo_owner_mismatch_witness :
    (handlerUploadVideo sampleConfig sampleEnv strangerRequest emptyWorld).status
        = StatusUnauthorized ∧
      (handlerUploadVideo sampleConfig sampleEnv strangerRequest emptyWorld).status
        ≠ StatusForbidden ∧
      (handlerUploadVideo sampleConfig sampleEnv strangerRequest emptyWorld).world
        = emptyWorld :=
  handlerUploadVideo_owner_mismatch sampleConfig sampleEnv strangerRequest emptyWorld
    ⟨1⟩ ⟨8⟩ "u2" ⟨⟨1⟩, ⟨7⟩, none⟩ (by decide) (by decide) (by decide) (by decide) (by decide)

/-! ## Temporary files -/

theorem runDeferred_fs_subset (ds : List Deferred) :
    ∀ (w : World) (p : String), p ∉ w.fs → p ∉ (runDeferred w ds).fs := by
  induction ds with
  | nil => intro w p h; simpa [runDeferred] using h
  | cons d ds ih =>
    intro w p h
    cases d with
    | closeFile => simpa [runDeferred] using ih w p h
    | remove q =>
      simp only [runDeferred]
      apply ih
      simp only [World.remove, List.mem_filter]
      exact fun hp => h hp.1

theorem runDeferred_removes (ds : List Deferred) :
    ∀ (w : World) (p : String), Deferred.remove p ∈ ds → p ∉ (runDeferred w ds).fs := by
  induction ds with
  | nil => intro w p h; simp at h
  | cons d ds ih =>
    intro w p h
    rcases List.mem_cons.mp h with hd | htl
    · subst hd
      simp only [runDeferred]
      apply runDeferred_fs_subset
      simp [World.remove]
    · cases d with
      | closeFile => simpa [runDeferred] using ih w p htl
      | remove q => simpa [runDeferred] using ih (w.remove q) p htl

/-- The raw staged file is removed on every path out of the handler after
`os.CreateTemp` succeeded. -/
theorem staged_file_removed (cfg : Config) (env : Env) (w0 : World) (video : Video)
    (mediaType tempName : String) (hct : env.createTemp = some tempName) :
    tempName ∉ (uploadFromStaging cfg env w0 video mediaType).world.fs := by
  unfold uploadFromStaging
  simp only [hct, processVideoForFastStart]
  cases env.ffmpegOK <;> simp only [Bool.false_eq_true, if_false, if_true]
  all_goals repeat' split
  all_goals
    simp only [respondWithError, respondWithJSON]
    apply runDeferred_removes
    simp

theorem processing_path_ne (p : String) : p ++ ".processing" ≠ p := by
  intro h
  have hlen := congrArg String.length h
  rw [String.length_append] at hlen
  have : (".processing" : String).length = 11 := by decide
  omega

/-- The transcoder's output file is removed on every path out of the handler
on which the transcoder reported success, and it is absent whenever the
transcoder did not create it. -/
theorem processed_file_removed (cfg : Config) (env : Env) (w0 : World) (video : Video)
    (mediaType tempName : String) (hct : env.createTemp = some tempName)
    (hfresh : tempName ++ ".processing" ∉ w0.fs)
    (hok : env.ffmpegOK = true ∨ env.ffmpegWritesOutput = false) :
    tempName ++ ".processing" ∉ (uploadFromStaging cfg env w0 video mediaType).world.fs := by
  have hne := processing_path_ne tempName
  unfold uploadFromStaging
  simp only [hct, processVideoForFastStart]
  rcases hok with hok | hok
  · simp only [hok, if_true]
    cases env.ffmpegWritesOutput <;> simp only [Bool.false_eq_true, if_false, if_true] <;>
      repeat' split
    all_goals
      simp only [respondWithError, respondWithJSON]
      first
        | (apply runDeferred_removes
           simp
           done)
        | (apply runDeferred_fs_subset
           simp [World.log, World.addFile, hne, hfresh])
  simp only [hok, Bool.false_eq_true, if_false]
  cases env.ffmpegOK <;> simp only [Bool.false_eq_true, if_false, if_true]
  all_goals repeat' split
  all_goals
    simp only [respondWithError, respondWithJSON]
    first
      | (apply runDeferred_removes
         simp
         done)
      | (apply runDeferred_fs_subset
         simp [World.log, World.addFile, hne, hfresh])

/-- The transcoder's output of the sample run is not on disk beforehand and the
transcoder reports success: the output file is gone when the handler returns. -/
theorem processed_file_removed_sample :
    "/tmp/tubely-upload-1.mp4" ++ ".processing"
      ∉ (uploadFromStaging sampleConfig sampleEnv emptyWorld ⟨⟨1⟩, ⟨7⟩, none⟩ "video/mp4").world.fs :=
  processed_file_removed sampleConfig sampleEnv emptyWorld ⟨⟨1⟩, ⟨7⟩, none⟩ "video/mp4"
    "/tmp/tubely-upload-1.mp4" rfl (by decide) (Or.inl rfl)

/-- C2 (the code departs from the claim): when the transcoder has created
`<staged path>.processing` and then exits with a failure, the handler answers
500 and removes the raw staged file, but the transcoder's output file is still
on disk when the handler returns. -/
theorem transcoder_failure_leaves_output :
    (handlerUploadVideo sampleConfig transcoderFailsEnv ownerRequest emptyWorld).status
        = StatusInternalServerError ∧
      "/tmp/tubely-upload-1.mp4"
        ∉ (handlerUploadVideo sampleConfig transcoderFailsEnv ownerRequest emptyWorld).world.fs ∧
      "/tmp/tubely-upload-1.mp4.processing"
        ∈ (handlerUploadVideo sampleConfig transcoderFailsEnv ownerRequest emptyWorld).world.fs := by
  decide

/-! ## Ordering of side effects -/

/-- A run either returns before staging, leaving the world untouched, or goes on
with the staging part of the handler. -/
theorem handlerUploadVideo_cases (cfg : Config) (env : Env) (r : Request) (w0 : World) :
    (handlerUploadVideo cfg env r w0).world = w0 ∨
      ∃ video mediaType,
        handlerUploadVideo cfg env r w0 = uploadFromStaging cfg env w0 video mediaType := by
  unfold handlerUploadVideo
  dsimp only
  repeat' split
  all_goals first
    | (left; simp [respondWithError, runDeferred])
    | exact Or.inr ⟨_, _, rfl⟩

theorem uploadFromStaging_putObject (cfg : Config) (env : Env) (fs0 : List String)
    (video : Video) (mediaType : String)
    (pre post : List Event) (bucket key contentType : String) (ok : Bool) :
      (uploadFromStaging cfg env ⟨fs0, []⟩ video mediaType).world.trace
          = pre ++ Event.putObject bucket key contentType ok :: post →
        ∃ tempName, Event.createTemp (some tempName) ∈ pre ∧
          Event.copyToTemp tempName true ∈ pre ∧
          Event.transcode tempName (tempName ++ ".processing") true ∈ pre := by
  unfold uploadFromStaging
  cases env.createTemp with
  | none =>
    simp only [respondWithError, runDeferred, World.log, List.nil_append]
    intro h
    simp only [List.cons_eq_append_iff, List.nil_eq_append_iff] at h
    simp at h
  | some tempName =>
    simp only [processVideoForFastStart]
    cases env.ffmpegOK <;> cases env.copyOK <;>
      simp only [Bool.false_eq_true, if_false, if_true, Bool.not_true, Bool.not_false]
    all_goals repeat' split
    all_goals
      simp only [respondWithError, respondWithJSON, runDeferred, World.log, World.addFile,
        World.remove, List.nil_append, List.cons_append, List.append_assoc]
      intro h
      simp only [List.cons_eq_append_iff, List.nil_eq_append_iff] at h
      first
        | (simp at h
           obtain ⟨_, rfl, _, rfl, _, rfl, -⟩ := h
           refine ⟨tempName, ?_, ?_, ?_⟩ <;> simp)
        | simp at h

theorem uploadFromStaging_updateVideo (cfg : Config) (env : Env) (fs0 : List String)
    (video : Video) (mediaType : String)
    (pre post : List Event) (v : Video) (ok : Bool) :
      (uploadFromStaging cfg env ⟨fs0, []⟩ video mediaType).world.trace
          = pre ++ Event.updateVideo v ok :: post →
        ∃ bucket key contentType, Event.putObject bucket key contentType true ∈ pre := by
  unfold uploadFromStaging
  cases env.createTemp with
  | none =>
    simp only [respondWithError, runDeferred, World.log, List.nil_append]
    intro h
    simp only [List.cons_eq_append_iff, List.nil_eq_append_iff] at h
    simp at h
  | some tempName =>
    simp only [processVideoForFastStart]
    cases env.ffmpegOK <;> cases env.putObjectOK <;>
      simp only [Bool.false_eq_true, if_false, if_true, Bool.not_true, Bool.not_false]
    all_goals repeat' split
    all_goals
      simp only [respondWithError, respondWithJSON, runDeferred, World.log, World.addFile,
        World.remove, List.nil_append, List.cons_append, List.append_assoc]
      intro h
      simp only [List.cons_eq_append_iff, List.nil_eq_append_iff] at h
      first
        | (simp at h
           obtain ⟨_, rfl, _, rfl, _, rfl, _, rfl, _, rfl, _, rfl, -⟩ := h
           exact ⟨_, _, _, List.mem_cons_of_mem _ (List.mem_cons_of_mem _ (List.mem_cons_of_mem _
             (List.mem_cons_of_mem _ (List.mem_cons_of_mem _ (List.mem_cons_self _ _)))))⟩)
        | simp at h


/-- C3: in every run of `handlerUploadVideo`, an object-store put is preceded in
the log by a successful temp-file creation, a successful copy into it and a
successful transcode of that file, and a metadata update is preceded by a put
that returned success. -/
theorem putObject_after_staging_and_transcode (cfg : Config) (env : Env) (r : Request)
    (fs0 : List String) :
    (∀ (pre post : List Event) (bucket key contentType : String) (ok : Bool),
      (handlerUploadVideo cfg env r ⟨fs0, []⟩).world.trace
          = pre ++ Event.putObject bucket key contentType ok :: post →
        ∃ tempName, Event.createTemp (some tempName) ∈ pre ∧
          Event.copyToTemp tempName true ∈ pre ∧
          Event.transcode tempName (tempName ++ ".processing") true ∈ pre) ∧
    (∀ (pre post : List Event) (v : Video) (ok : Bool),
      (handlerUploadVideo cfg env r ⟨fs0, []⟩).world.trace
          = pre ++ Event.updateVideo v ok :: post →
        ∃ bucket key contentType, Event.putObject bucket key contentType true ∈ pre) := by
  rcases handlerUploadVideo_cases cfg env r ⟨fs0, []⟩ with h0 | ⟨video, mediaType, h0⟩
  · rw [h0]
    constructor
    · intro pre post bucket key contentType ok h
      simp at h
    · intro pre post v ok h
      simp at h
  · rw [h0]
    exact ⟨fun pre post bucket key contentType ok =>
        uploadFromStaging_putObject cfg env fs0 video mediaType pre post bucket key contentType ok,
      fun pre post v ok => uploadFromStaging_updateVideo cfg env fs0 video mediaType pre post v ok⟩

/-- The successful sample run: its log splits at the put, and the three staging
steps are found before it. -/
theorem putObject_after_staging_and_transcode_witness :
    (handlerUploadVideo sampleConfig sampleEnv ownerRequest ⟨[], []⟩).world.trace
        = [Event.createTemp (some "/tmp/tubely-upload-1.mp4"),
            Event.copyToTemp "/tmp/tubely-upload-1.mp4" true,
            Event.transcode "/tmp/tubely-upload-1.mp4" "/tmp/tubely-upload-1.mp4.processing" true,
            Event.openFile "/tmp/tubely-upload-1.mp4.processing" true,
            Event.probe "/tmp/tubely-upload-1.mp4.processing"]
          ++ Event.putObject "tubely" "landscape/AAAAAAAAAAAAAAAAAAAAAAAAAAAAAAAAAAAAAAAAAAA.mp4"
              "video/mp4" true
            :: [Event.updateVideo ⟨⟨1⟩, ⟨7⟩, some
                  "https://d1.example.net/landscape/AAAAAAAAAAAAAAAAAAAAAAAAAAAAAAAAAAAAAAAAAAA.mp4"⟩ true,
                Event.remove "/tmp/tubely-upload-1.mp4.processing",
                Event.remove "/tmp/tubely-upload-1.mp4"] ∧
      ∃ tempName,
        Event.createTemp (some tempName) ∈ [Event.createTemp (some "/tmp/tubely-upload-1.mp4"),
            Event.copyToTemp "/tmp/tubely-upload-1.mp4" true,
            Event.transcode "/tmp/tubely-upload-1.mp4" "/tmp/tubely-upload-1.mp4.processing" true,
            Event.openFile "/tmp/tubely-upload-1.mp4.processing" true,
            Event.probe "/tmp/tubely-upload-1.mp4.processing"] ∧
        Event.copyToTemp tempName true ∈ [Event.createTemp (some "/tmp/tubely-upload-1.mp4"),
            Event.copyToTemp "/tmp/tubely-upload-1.mp4" true,
            Event.transcode "/tmp/tubely-upload-1.mp4" "/tmp/tubely-upload-1.mp4.processing" true,
            Event.openFile "/tmp/tubely-upload-1.mp4.processing" true,
            Event.probe "/tmp/tubely-upload-1.mp4.processing"] ∧
        Event.transcode tempName (tempName ++ ".processing") true
          ∈ [Event.createTemp (some "/tmp/tubely-upload-1.mp4"),
            Event.copyToTemp "/tmp/tubely-upload-1.mp4" true,
            Event.transcode "/tmp/tubely-upload-1.mp4" "/tmp/tubely-upload-1.mp4.processing" true,
            Event.openFile "/tmp/tubely-upload-1.mp4.processing" true,
            Event.probe "/tmp/tubely-upload-1.mp4.processing"] :=
  have h : (handlerUploadVideo sampleConfig sampleEnv ownerRequest ⟨[], []⟩).world.trace = _ := by
    decide!
  ⟨h, (putObject_after_staging_and_transcode sampleConfig sampleEnv ownerRequest []).1
    _ _ _ _ _ _ h⟩

/-! ## Media type gate -/

/-- C4: the effective media type is the sniffed type when the declared type is
empty or `application/octet-stream` and the declared type otherwise; the check
lets the request through exactly when the effective type parses to
`video/mp4`.  In the handler, once the steps before the check have succeeded,
a passing request goes on to staging with the effective type and a failing one
is answered 400 with nothing done.  Declared `application/octet-stream` with
sniffed `video/mp4` passes; declared `image/png` with sniffed `video/mp4` is
rejected. -/
theorem media_type_gate (cfg : Config) (env : Env) (r : Request) (w0 : World)
    (videoID : UUID) (userIDStr : String) (video : Video) (d : String) (head : List Nat)
    (hvid : env.uuidParse r.videoIDStr = some videoID)
    (hctx : r.ctxUserID = some userIDStr)
    (huid : env.uuidParse userIDStr = some video.UserID)
    (hget : env.getVideo videoID = some video)
    (hform : env.parseMultipartFormOK = true)
    (hfile : env.formFileContentType = some d)
    (hread : env.readHead = some head)
    (hseek : env.seekOK = true)
    (hmp4 : env.parseMediaType "video/mp4" = some "video/mp4")
    (hpng : env.parseMediaType "image/png" = some "image/png") :
    (d = "" ∨ d = "application/octet-stream" →
        effectiveMediaType d (env.detectContentType head) = env.detectContentType head) ∧
      (¬(d = "" ∨ d = "application/octet-stream") →
        effectiveMediaType d (env.detectContentType head) = d) ∧
      (checkMediaType env.parseMediaType (effectiveMediaType d (env.detectContentType head)) = none ↔
        env.parseMediaType (effectiveMediaType d (env.detectContentType head))
          = some "video/mp4") ∧
      (env.parseMediaType (effectiveMediaType d (env.detectContentType head)) = some "video/mp4" →
        handlerUploadVideo cfg env r w0
          = uploadFromStaging cfg env w0 video
              (effectiveMediaType d (env.detectContentType head))) ∧
      (env.parseMediaType (effectiveMediaType d (env.detectContentType head)) ≠ some "video/mp4" →
        (handlerUploadVideo cfg env r w0).status = StatusBadRequest ∧
          (handlerUploadVideo cfg env r w0).world = w0) ∧
      checkMediaType env.parseMediaType
          (effectiveMediaType "application/octet-stream" "video/mp4") = none ∧
      checkMediaType env.parseMediaType (effectiveMediaType "image/png" "video/mp4")
        = some (StatusBadRequest, "Video must be an MP4") := by
  have hgate : ∀ m, checkMediaType env.parseMediaType m = none ↔
      env.parseMediaType m = some "video/mp4" := by
    intro m
    unfold checkMediaType
    cases env.parseMediaType m with
    | none => simp
    | some p => by_cases hp : p = "video/mp4" <;> simp [hp]
  have hrun : handlerUploadVideo cfg env r w0
      = match checkMediaType env.parseMediaType
          (effectiveMediaType d (env.detectContentType head)) with
        | some (code, msg) => respondWithError w0 [Deferred.closeFile] code msg
        | none => uploadFromStaging cfg env w0 video
            (effectiveMediaType d (env.detectContentType head)) := by
    unfold handlerUploadVideo
    simp only [hvid, hctx, huid, hget, hform, hfile, hread, hseek]
    simp
  refine ⟨?_, ?_, hgate _, ?_, ?_, ?_, ?_⟩
  · intro h
    simp [effectiveMediaType, h]
  · intro h
    simp [effectiveMediaType, h]
  · intro h
    rw [hrun, (hgate _).mpr h]
  · intro h
    rw [hrun]
    unfold checkMediaType
    cases hp : env.parseMediaType (effectiveMediaType d (env.detectContentType head)) with
    | none => simp [respondWithError, runDeferred]
    | some p =>
      have hne : p ≠ "video/mp4" := fun e => h (by rw [hp, e])
      simp [hne, respondWithError, runDeferred]
  · have he : effectiveMediaType "application/octet-stream" "video/mp4" = "video/mp4" := by
      decide
    rw [he]
    exact (hgate _).mpr hmp4
  · have he : effectiveMediaType "image/png" "video/mp4" = "image/png" := by decide
    rw [he]
    unfold checkMediaType
    rw [hpng]
    decide

/-- The sample run: the part is declared `video/mp4`, which the parser maps to
itself, and the handler goes on to staging. -/
theorem media_type_gate_witness :
    checkMediaType sampleEnv.parseMediaType
        (effectiveMediaType "video/mp4" (sampleEnv.detectContentType [0, 0, 0, 32, 102, 116, 121, 112]))
        = none ∧
      handlerUploadVideo sampleConfig sampleEnv ownerRequest emptyWorld
        = uploadFromStaging sampleConfig sampleEnv emptyWorld ⟨⟨1⟩, ⟨7⟩, none⟩
            (effectiveMediaType "video/mp4"
              (sampleEnv.detectContentType [0, 0, 0, 32, 102, 116, 121, 112])) ∧
      checkMediaType sampleEnv.parseMediaType
          (effectiveMediaType "application/octet-stream" "video/mp4") = none ∧
      checkMediaType sampleEnv.parseMediaType (effectiveMediaType "image/png" "video/mp4")
        = some (StatusBadRequest, "Video must be an MP4") :=
  have h := media_type_gate sampleConfig sampleEnv ownerRequest emptyWorld ⟨1⟩ "u1"
    ⟨⟨1⟩, ⟨7⟩, none⟩ "video/mp4" [0, 0, 0, 32, 102, 116, 121, 112]
    (by decide) (by decide) (by decide) (by decide) rfl rfl rfl rfl (by decide) (by decide)
  ⟨h.2.2.1.mpr (by decide), h.2.2.2.1 (by decide), h.2.2.2.2.2.1, h.2.2.2.2.2.2⟩

/-! ## Rounding to binary64 -/

theorem log2Fuel_eq_log2 : ∀ fuel n, n ≤ fuel → log2Fuel fuel n = Nat.log2 n := by
  intro fuel
  induction fuel with
  | zero =>
    intro n hn
    have h0 : n = 0 := by omega
    subst h0
    rw [Nat.log2]
    simp [log2Fuel]
  | succ k ih =>
    intro n hn
    rw [Nat.log2]
    simp only [log2Fuel]
    by_cases h2 : 2 ≤ n
    · rw [if_pos h2, if_pos h2, ih (n / 2) (by omega)]
    · rw [if_neg h2, if_neg h2]

theorem ilog2_eq_log2 (n : Nat) : ilog2 n = Nat.log2 n :=
  log2Fuel_eq_log2 n n (le_refl n)

theorem pow_ilog2_le {n : Nat} (hn : n ≠ 0) : 2 ^ ilog2 n ≤ n := by
  rw [ilog2_eq_log2]
  exact Nat.log2_self_le hn

theorem lt_pow_ilog2_succ (n : Nat) : n < 2 ^ (ilog2 n + 1) := by
  rw [ilog2_eq_log2]
  exact Nat.lt_log2_self

/-- The nearest-integer rounding is within one half of the exact quotient. -/
theorem roundHalfEven_bounds (N D : Nat) (hD : 0 < D) :
    2 * N ≤ 2 * (D * roundHalfEven N D) + D ∧ 2 * (D * roundHalfEven N D) ≤ 2 * N + D := by
  have hN : D * (N / D) + N % D = N := Nat.div_add_mod N D
  have hr : N % D < D := Nat.mod_lt N hD
  have hmul : D * (N / D + 1) = D * (N / D) + D := by ring
  unfold roundHalfEven
  split
  · constructor <;> omega
  · split
    · rw [hmul]; constructor <;> omega
    · split
      · constructor <;> omega
      · rw [hmul]; constructor <;> omega

theorem roundHalfEven_abs (N D : Nat) (hD : 0 < D) :
    |(roundHalfEven N D : ℚ) - (N : ℚ) / D| ≤ 1 / 2 := by
  obtain ⟨h1, h2⟩ := roundHalfEven_bounds N D hD
  have hDq : (0 : ℚ) < D := by exact_mod_cast hD
  have h1q : (2 : ℚ) * N ≤ 2 * (D * roundHalfEven N D) + D := by exact_mod_cast h1
  have h2q : (2 : ℚ) * (D * roundHalfEven N D) ≤ 2 * N + D := by exact_mod_cast h2
  have hx : (N : ℚ) = (N : ℚ) / D * D := by field_simp
  rw [abs_le]
  constructor
  · have h3 : (N : ℚ) / D * D ≤ ((roundHalfEven N D : ℚ) + 1 / 2) * D := by
      rw [← hx]; linarith
    have h4 := le_of_mul_le_mul_right h3 hDq
    linarith
  · have h3 : ((roundHalfEven N D : ℚ) - 1 / 2) * D ≤ (N : ℚ) / D * D := by
      rw [← hx]; linarith
    have h4 := le_of_mul_le_mul_right h3 hDq
    linarith

/-- The power of two `2^s` as a quotient of natural powers. -/
theorem zpow_two_eq (s : Int) :
    (2 : ℚ) ^ s = (2 : ℚ) ^ s.toNat / (2 : ℚ) ^ (-s).toNat := by
  rcases le_total 0 s with h | h
  · have h1 : (-s).toNat = 0 := Int.toNat_eq_zero.mpr (by omega)
    have h2 : (s.toNat : Int) = s := Int.toNat_of_nonneg h
    rw [h1, pow_zero, div_one, ← zpow_natCast, h2]
  · have h1 : s.toNat = 0 := Int.toNat_eq_zero.mpr h
    have h2 : ((-s).toNat : Int) = -s := Int.toNat_of_nonneg (by omega)
    rw [h1, pow_zero, one_div, ← zpow_natCast, h2, zpow_neg, inv_inv]

/-- The binary exponent is a lower bound: `2^(binExp n d) ≤ n / d`. -/
theorem binExp_le (n d : Nat) (hn : 0 < n) (hd : 0 < d) :
    (2 : ℚ) ^ binExp n d ≤ (n : ℚ) / d := by
  have hdq : (0 : ℚ) < d := by exact_mod_cast hd
  have ha := pow_ilog2_le (Nat.pos_iff_ne_zero.mp hn)
  have hb := lt_pow_ilog2_succ d
  rw [le_div_iff₀ hdq]
  unfold binExp
  split
  · rename_i hab
    split
    · rename_i h
      rw [zpow_natCast]
      exact_mod_cast h
    · -- 2^(a-b-1) * d < 2^(a-b-1) * 2^(b+1) = 2^a ≤ n
      have e1 : ((ilog2 n - ilog2 d : Nat) : Int) - 1 = (ilog2 n : Int) - ((ilog2 d + 1 : Nat) : Int) := by
        omega
      rw [e1, zpow_sub₀ (by norm_num), zpow_natCast, zpow_natCast, div_mul_eq_mul_div,
        div_le_iff₀ (by positivity)]
      have h1 : ((2 ^ ilog2 n : Nat) : ℚ) ≤ n := by exact_mod_cast ha
      have h2 : (d : ℚ) ≤ ((2 ^ (ilog2 d + 1) : Nat) : ℚ) := by exact_mod_cast hb.le
      push_cast at h1 h2
      calc (2 : ℚ) ^ ilog2 n * d ≤ 2 ^ ilog2 n * 2 ^ (ilog2 d + 1) := by gcongr
        _ ≤ n * 2 ^ (ilog2 d + 1) := by gcongr
  · rename_i hab
    split
    · rename_i h
      rw [zpow_neg, zpow_natCast, inv_mul_le_iff₀ (by positivity)]
      have : (d : ℚ) ≤ ((n * 2 ^ (ilog2 d - ilog2 n) : Nat) : ℚ) := by exact_mod_cast h
      push_cast at this
      linarith
    · have e1 : -((ilog2 d - ilog2 n : Nat) : Int) - 1 = (ilog2 n : Int) - ((ilog2 d + 1 : Nat) : Int) := by
        omega
      rw [e1, zpow_sub₀ (by norm_num), zpow_natCast, zpow_natCast, div_mul_eq_mul_div,
        div_le_iff₀ (by positivity)]
      have h1 : ((2 ^ ilog2 n : Nat) : ℚ) ≤ n := by exact_mod_cast ha
      have h2 : (d : ℚ) ≤ ((2 ^ (ilog2 d + 1) : Nat) : ℚ) := by exact_mod_cast hb.le
      push_cast at h1 h2
      calc (2 : ℚ) ^ ilog2 n * d ≤ 2 ^ ilog2 n * 2 ^ (ilog2 d + 1) := by gcongr
        _ ≤ n * 2 ^ (ilog2 d + 1) := by gcongr


/-- The binary exponent is sharp: `n / d < 2^(binExp n d + 1)`. -/
theorem lt_binExp_succ (n d : Nat) (hd : 0 < d) :
    (n : ℚ) / d < (2 : ℚ) ^ (binExp n d + 1) := by
  have hdq : (0 : ℚ) < d := by exact_mod_cast hd
  have ha := lt_pow_ilog2_succ n
  have hb := pow_ilog2_le (Nat.pos_iff_ne_zero.mp hd)
  have h1 : (n : ℚ) < ((2 ^ (ilog2 n + 1) : Nat) : ℚ) := by exact_mod_cast ha
  have h2 : ((2 ^ ilog2 d : Nat) : ℚ) ≤ d := by exact_mod_cast hb
  push_cast at h1 h2
  rw [div_lt_iff₀ hdq]
  unfold binExp
  split
  · rename_i hab
    split
    · have e1 : ((ilog2 n - ilog2 d : Nat) : Int) + 1
          = ((ilog2 n + 1 : Nat) : Int) - (ilog2 d : Int) := by omega
      rw [e1, zpow_sub₀ (by norm_num), zpow_natCast, zpow_natCast, div_mul_eq_mul_div,
        lt_div_iff₀ (by positivity)]
      calc (n : ℚ) * 2 ^ ilog2 d < 2 ^ (ilog2 n + 1) * 2 ^ ilog2 d := by gcongr
        _ ≤ 2 ^ (ilog2 n + 1) * d := by gcongr
    · rename_i h
      have e1 : ((ilog2 n - ilog2 d : Nat) : Int) - 1 + 1 = ((ilog2 n - ilog2 d : Nat) : Int) := by
        omega
      rw [e1, zpow_natCast]
      have h3 : n < 2 ^ (ilog2 n - ilog2 d) * d := Nat.lt_of_not_le h
      exact_mod_cast h3
  · rename_i hab
    split
    · have e1 : -((ilog2 d - ilog2 n : Nat) : Int) + 1
          = ((ilog2 n + 1 : Nat) : Int) - (ilog2 d : Int) := by omega
      rw [e1, zpow_sub₀ (by norm_num), zpow_natCast, zpow_natCast, div_mul_eq_mul_div,
        lt_div_iff₀ (by positivity)]
      calc (n : ℚ) * 2 ^ ilog2 d < 2 ^ (ilog2 n + 1) * 2 ^ ilog2 d := by gcongr
        _ ≤ 2 ^ (ilog2 n + 1) * d := by gcongr
    · rename_i h
      have e1 : -((ilog2 d - ilog2 n : Nat) : Int) - 1 + 1 = -((ilog2 d - ilog2 n : Nat) : Int) := by
        omega
      rw [e1, zpow_neg, zpow_natCast, inv_mul_eq_div, lt_div_iff₀ (by positivity)]
      have h3 : n * 2 ^ (ilog2 d - ilog2 n) < d := Nat.lt_of_not_le h
      exact_mod_cast h3

/-- Rounding a positive quotient moves it by at most half a unit in the last
place: `|roundPos n d - n/d| ≤ 2^(e-53)` with `2^e ≤ n/d`. -/
theorem roundPos_abs (n d : Nat) (hn : 0 < n) (hd : 0 < d) :
    |roundPos n d - (n : ℚ) / d| ≤ (n : ℚ) / d / 2 ^ 53 := by
  have hexp := binExp_le n d hn hd
  unfold roundPos
  generalize binExp n d = e at hexp ⊢
  simp only []
  set s : Int := e - 52 with hs
  have hD : 0 < d * 2 ^ s.toNat := Nat.mul_pos hd (Nat.pow_pos (by norm_num))
  have hround := roundHalfEven_abs (n * 2 ^ (-s).toNat) (d * 2 ^ s.toNat) hD
  have hdq : (0 : ℚ) < d := by exact_mod_cast hd
  have h2s : (0 : ℚ) < (2 : ℚ) ^ s := zpow_pos (by norm_num) s
  have hquot : ((n * 2 ^ (-s).toNat : Nat) : ℚ) / ((d * 2 ^ s.toNat : Nat) : ℚ)
      = (n : ℚ) / d / (2 : ℚ) ^ s := by
    rw [zpow_two_eq s]
    push_cast
    field_simp
  rw [hquot] at hround
  have hfac : (roundHalfEven (n * 2 ^ (-s).toNat) (d * 2 ^ s.toNat) : ℚ) * (2 : ℚ) ^ s - (n : ℚ) / d
      = ((roundHalfEven (n * 2 ^ (-s).toNat) (d * 2 ^ s.toNat) : ℚ) - (n : ℚ) / d / (2 : ℚ) ^ s)
          * (2 : ℚ) ^ s := by
    field_simp
    ring
  rw [hfac, abs_mul, abs_of_pos h2s]
  have hes : (2 : ℚ) ^ e = (2 : ℚ) ^ s * 2 ^ 52 := by
    rw [hs, zpow_sub₀ (by norm_num)]
    norm_num
  calc |(roundHalfEven (n * 2 ^ (-s).toNat) (d * 2 ^ s.toNat) : ℚ) - (n : ℚ) / d / (2 : ℚ) ^ s|
          * (2 : ℚ) ^ s
        ≤ 1 / 2 * (2 : ℚ) ^ s := by gcongr
    _ = (2 : ℚ) ^ e / 2 ^ 53 := by rw [hes]; ring
    _ ≤ (n : ℚ) / d / 2 ^ 53 := by gcongr

/-- Relative error of rounding: for `q > 0`, `|rnd q - q| ≤ q / 2^53`. -/
theorem rnd_abs (q : ℚ) (hq : 0 < q) : |rnd q - q| ≤ q / 2 ^ 53 := by
  have hnum : 0 < q.num := Rat.num_pos.mpr hq
  have hn : 0 < q.num.natAbs := Int.natAbs_pos.mpr (ne_of_gt hnum)
  have hcast : ((q.num.natAbs : Nat) : ℚ) / (q.den : ℚ) = q := by
    have h1 : ((q.num.natAbs : Nat) : Int) = q.num := Int.natAbs_of_nonneg hnum.le
    have h2 : ((q.num.natAbs : Nat) : ℚ) = ((q.num : Int) : ℚ) := by
      rw [← Int.cast_natCast, h1]
    rw [h2]
    exact Rat.num_div_den q
  have h := roundPos_abs q.num.natAbs q.den hn q.den_pos
  rw [hcast] at h
  unfold rnd
  rw [if_neg (ne_of_gt hq), if_pos hq]
  exact h

theorem rnd_lower (q : ℚ) (hq : 0 < q) : q * (1 - 1 / 2 ^ 53) ≤ rnd q := by
  have h := (abs_le.mp (rnd_abs q hq)).1
  linarith

theorem rnd_upper (q : ℚ) (hq : 0 < q) : rnd q ≤ q * (1 + 1 / 2 ^ 53) := by
  have h := (abs_le.mp (rnd_abs q hq)).2
  linarith

theorem rnd_pos (q : ℚ) (hq : 0 < q) : 0 < rnd q := by
  have h := rnd_lower q hq
  have : 0 < q * (1 - 1 / 2 ^ 53) := by
    apply mul_pos hq
    norm_num
  linarith


theorem ilog2_lt_of_lt_pow {n k : Nat} (hn : n ≠ 0) (h : n < 2 ^ k) : ilog2 n < k := by
  rw [ilog2_eq_log2]
  exact (Nat.log2_lt hn).mpr h

/-- Integers below `2^53` are `float64` values: converting them is exact. -/
theorem rnd_natCast (n : Nat) (h : n < 2 ^ 53) : rnd (n : ℚ) = n := by
  rcases Nat.eq_zero_or_pos n with h0 | hpos
  · subst h0
    simp [rnd]
  have hne : n ≠ 0 := Nat.pos_iff_ne_zero.mp hpos
  have hq : (0 : ℚ) < n := by exact_mod_cast hpos
  have hlog : ilog2 n < 53 := ilog2_lt_of_lt_pow hne h
  have hle := pow_ilog2_le hne
  have h1 : ilog2 1 = 0 := by decide
  unfold rnd
  rw [if_neg (ne_of_gt hq), if_pos hq]
  simp only [Rat.num_natCast, Int.natAbs_ofNat, Rat.den_natCast]
  have hexp : binExp n 1 = (ilog2 n : Int) := by
    unfold binExp
    rw [h1]
    simp [hle]
  unfold roundPos
  simp only [hexp]
  have hs1 : ((ilog2 n : Int) - 52).toNat = 0 := Int.toNat_eq_zero.mpr (by omega)
  have hs2 : ((-((ilog2 n : Int) - 52)).toNat : Int) = 52 - (ilog2 n : Int) :=
    by rw [Int.toNat_of_nonneg (by omega)]; ring
  have hrh : ∀ N : Nat, roundHalfEven N 1 = N := by
    intro N
    simp [roundHalfEven, Nat.mod_one]
  rw [hs1, pow_zero, mul_one, hrh]
  have hz : (2 : ℚ) ^ ((ilog2 n : Int) - 52)
      = ((2 : ℚ) ^ (-((ilog2 n : Int) - 52)).toNat)⁻¹ := by
    rw [← zpow_natCast, hs2, ← zpow_neg]
    congr 1
    ring
  rw [hz]
  push_cast
  field_simp

theorem rnd_intCast_of_nonneg (i : Int) (h0 : 0 ≤ i) (h : i < 2 ^ 53) : rnd (i : ℚ) = i := by
  obtain ⟨n, rfl⟩ := Int.eq_ofNat_of_zero_le h0
  have hn : n < 2 ^ 53 := by exact_mod_cast h
  simpa using rnd_natCast n hn


/-! ## The thresholds -/

theorem lower_threshold : F64.sub target169 tolerance = F64.fin loQ := by decide!

theorem upper_threshold : F64.add target169 tolerance = F64.fin hiQ := by decide!

theorem one_eq : one = F64.fin 1 := by decide!

theorem rnd_one : rnd 1 = 1 := by decide!

theorem div_fin_fin (a b : ℚ) (ha : a ≠ 0) (hb : b ≠ 0) :
    F64.div (F64.fin a) (F64.fin b) = F64.fin (rnd (a / b)) := by
  simp [F64.div, F64.val, ha, hb]

theorem ge_fin_fin (a b : ℚ) : F64.ge (F64.fin a) (F64.fin b) = decide (b ≤ a) := by
  simp [F64.ge, F64.le, F64.val]

theorem le_fin_fin (a b : ℚ) : F64.le (F64.fin a) (F64.fin b) = decide (a ≤ b) := by
  simp [F64.le, F64.val]

/-- The classification in terms of the rounded ratio, for nonzero operands. -/
theorem classifyGeometry_of_ratio (width height : Int) (hw : rnd (width : ℚ) ≠ 0)
    (hh : rnd (height : ℚ) ≠ 0) (hz : height ≠ 0)
    (hr : rnd (rnd (width : ℚ) / rnd (height : ℚ)) ≠ 0) :
    (classifyGeometry width height).label
      = if loQ ≤ rnd (rnd (width : ℚ) / rnd (height : ℚ))
          ∧ rnd (rnd (width : ℚ) / rnd (height : ℚ)) ≤ hiQ then "landscape"
        else if loQ ≤ rnd (1 / rnd (rnd (width : ℚ) / rnd (height : ℚ)))
          ∧ rnd (1 / rnd (rnd (width : ℚ) / rnd (height : ℚ))) ≤ hiQ then "portrait"
        else "other" := by
  unfold classifyGeometry
  rw [if_neg hz]
  simp only [F64.ofInt, lower_threshold, upper_threshold, one_eq]
  rw [div_fin_fin _ _ hw hh, div_fin_fin _ _ one_ne_zero hr]
  simp only [ge_fin_fin, le_fin_fin, Bool.and_eq_true, decide_eq_true_eq]
  by_cases h1 : loQ ≤ rnd (rnd (width : ℚ) / rnd (height : ℚ))
      ∧ rnd (rnd (width : ℚ) / rnd (height : ℚ)) ≤ hiQ
  · rw [if_pos h1, if_pos h1]
  · rw [if_neg h1, if_neg h1]
    by_cases h2 : loQ ≤ rnd (1 / rnd (rnd (width : ℚ) / rnd (height : ℚ)))
    · rw [if_pos h2]
      by_cases h3 : rnd (1 / rnd (rnd (width : ℚ) / rnd (height : ℚ))) ≤ hiQ
      · rw [if_pos h3, if_pos ⟨h2, h3⟩]
      · rw [if_neg h3, if_neg (fun h => h3 h.2)]
    · rw [if_neg h2, if_neg (fun h => h2 h.1)]

theorem rnd_coarse (q : ℚ) (hq : 0 < q) :
    q * (999 / 1000) ≤ rnd q ∧ rnd q ≤ q * (1001 / 1000) := by
  have h1 := rnd_lower q hq
  have h2 := rnd_upper q hq
  constructor
  · have : q * (999 / 1000) ≤ q * (1 - 1 / 2 ^ 53) := by
      apply mul_le_mul_of_nonneg_left _ hq.le
      norm_num
    linarith
  · have : q * (1 + 1 / 2 ^ 53) ≤ q * (1001 / 1000) := by
      apply mul_le_mul_of_nonneg_left _ hq.le
      norm_num
    linarith


/-- Bounds on the rounded quotient of two rounded positive values. -/
theorem ratio_bounds (x y : ℚ) (hx : 0 < x) (hy : 0 < y) :
    x / y * (997 / 1000) ≤ rnd (rnd x / rnd y) ∧ rnd (rnd x / rnd y) ≤ x / y * (1005 / 1000) := by
  obtain ⟨hx1, hx2⟩ := rnd_coarse x hx
  obtain ⟨hy1, hy2⟩ := rnd_coarse y hy
  have hxp := rnd_pos x hx
  have hyp := rnd_pos y hy
  obtain ⟨hr1, hr2⟩ := rnd_coarse _ (div_pos hxp hyp)
  have ht : 0 < x / y := div_pos hx hy
  have hxy : x = x / y * y := by field_simp
  have hlow : x / y * (998 / 1000) ≤ rnd x / rnd y := by
    rw [le_div_iff₀ hyp]
    have h1 : x / y * (998 / 1000) * rnd y ≤ x / y * (998 / 1000) * (y * (1001 / 1000)) :=
      mul_le_mul_of_nonneg_left hy2 (by positivity)
    have h2 : x / y * (998 / 1000) * (y * (1001 / 1000)) = x * (998 / 1000 * (1001 / 1000)) := by
      field_simp
      ring
    have h3 : x * (998 / 1000 * (1001 / 1000)) ≤ x * (999 / 1000) :=
      mul_le_mul_of_nonneg_left (by norm_num) hx.le
    linarith
  have hupp : rnd x / rnd y ≤ x / y * (1003 / 1000) := by
    rw [div_le_iff₀ hyp]
    have h1 : x / y * (1003 / 1000) * (y * (999 / 1000)) ≤ x / y * (1003 / 1000) * rnd y :=
      mul_le_mul_of_nonneg_left hy1 (by positivity)
    have h2 : x / y * (1003 / 1000) * (y * (999 / 1000)) = x * (1003 / 1000 * (999 / 1000)) := by
      field_simp
      ring
    have h3 : x * (1001 / 1000) ≤ x * (1003 / 1000 * (999 / 1000)) :=
      mul_le_mul_of_nonneg_left (by norm_num) hx.le
    linarith
  constructor
  · have h4 : x / y * (997 / 1000) ≤ x / y * (998 / 1000) * (999 / 1000) := by
      rw [mul_assoc]
      exact mul_le_mul_of_nonneg_left (by norm_num) ht.le
    have h5 : x / y * (998 / 1000) * (999 / 1000) ≤ rnd x / rnd y * (999 / 1000) :=
      mul_le_mul_of_nonneg_right hlow (by norm_num)
    linarith
  · have h4 : x / y * (1003 / 1000) * (1001 / 1000) ≤ x / y * (1005 / 1000) := by
      rw [mul_assoc]
      exact mul_le_mul_of_nonneg_left (by norm_num) ht.le
    have h5 : rnd x / rnd y * (1001 / 1000) ≤ x / y * (1003 / 1000) * (1001 / 1000) :=
      mul_le_mul_of_nonneg_right hupp (by norm_num)
    linarith

/-- C5: for every positive `k`, the geometry classification gives `landscape`
for 16k x 9k, `portrait` for 9k x 16k and `other` for k x k.  This includes
the `k` for which 16k exceeds 2^53 and the conversions to `float64` round. -/
theorem classify_sixteen_nine (k : Nat) (hk : 0 < k) :
    (classifyGeometry (16 * (k : Int)) (9 * (k : Int))).label = "landscape" ∧
      (classifyGeometry (9 * (k : Int)) (16 * (k : Int))).label = "portrait" ∧
      (classifyGeometry (k : Int) (k : Int)).label = "other" := by
  have hK : (0 : ℚ) < k := by exact_mod_cast hk
  have hKi : (k : Int) ≠ 0 := by exact_mod_cast (Nat.pos_iff_ne_zero.mp hk)
  have h16 : (0 : ℚ) < ((16 * (k : Int) : Int) : ℚ) := by push_cast; positivity
  have h9 : (0 : ℚ) < ((9 * (k : Int) : Int) : ℚ) := by push_cast; positivity
  have hk1 : (0 : ℚ) < (((k : Int) : Int) : ℚ) := by push_cast; positivity
  have hlo : loQ ≤ 17 / 10 := by norm_num [loQ]
  have hhi : (18 : ℚ) / 10 ≤ hiQ := by norm_num [hiQ]
  have hlo1 : (1 : ℚ) < loQ := by norm_num [loQ]
  have e169 : ((16 * (k : Int) : Int) : ℚ) / ((9 * (k : Int) : Int) : ℚ) = 16 / 9 := by
    push_cast; field_simp; ring
  have e916 : ((9 * (k : Int) : Int) : ℚ) / ((16 * (k : Int) : Int) : ℚ) = 9 / 16 := by
    push_cast; field_simp; ring
  refine ⟨?_, ?_, ?_⟩
  · obtain ⟨b1, b2⟩ := ratio_bounds _ _ h16 h9
    rw [e169] at b1 b2
    have hr : 0 < rnd (rnd ((16 * (k : Int) : Int) : ℚ) / rnd ((9 * (k : Int) : Int) : ℚ)) := by
      linarith
    rw [classifyGeometry_of_ratio _ _ (rnd_pos _ h16).ne' (rnd_pos _ h9).ne' (by omega) hr.ne',
      if_pos ⟨by linarith, by linarith⟩]
  · obtain ⟨b1, b2⟩ := ratio_bounds _ _ h9 h16
    rw [e916] at b1 b2
    have hr : 0 < rnd (rnd ((9 * (k : Int) : Int) : ℚ) / rnd ((16 * (k : Int) : Int) : ℚ)) := by
      linarith
    have hz := classifyGeometry_of_ratio (9 * (k : Int)) (16 * (k : Int)) (rnd_pos _ h9).ne'
      (rnd_pos _ h16).ne' (by omega) hr.ne'
    obtain ⟨c1, c2⟩ := rnd_coarse _ (one_div_pos.mpr hr)
    generalize rnd (rnd ((9 * (k : Int) : Int) : ℚ) / rnd ((16 * (k : Int) : Int) : ℚ)) = r
      at b1 b2 hr c1 c2 hz
    have hi1 : (176 : ℚ) / 100 ≤ 1 / r := by
      rw [le_div_iff₀ hr]; linarith
    have hi2 : 1 / r ≤ (179 : ℚ) / 100 := by
      rw [div_le_iff₀ hr]; linarith
    rw [hz, if_neg (fun h => by linarith [h.1]), if_pos ⟨by linarith, by linarith⟩]
  · have hkk : rnd (((k : Int) : Int) : ℚ) / rnd (((k : Int) : Int) : ℚ) = 1 :=
      div_self (rnd_pos _ hk1).ne'
    rw [classifyGeometry_of_ratio _ _ (rnd_pos _ hk1).ne' (rnd_pos _ hk1).ne' hKi
        (by rw [hkk, rnd_one]; norm_num),
      hkk, rnd_one]
    simp only [one_div, inv_one, rnd_one]
    rw [if_neg (fun h => by linarith [h.1]), if_neg (fun h => by linarith [h.1])]

/-- The frames 1920 x 1080, 1080 x 1920 and 120 x 120. -/
theorem classify_sixteen_nine_witness :
    (classifyGeometry (16 * ((120 : Nat) : Int)) (9 * ((120 : Nat) : Int))).label = "landscape" ∧
      (classifyGeometry (9 * ((120 : Nat) : Int)) (16 * ((120 : Nat) : Int))).label = "portrait" ∧
      (classifyGeometry ((120 : Nat) : Int) ((120 : Nat) : Int)).label = "other" :=
  classify_sixteen_nine 120 (by decide)


/-- C6: with a first stream of height 0 the classification is `other`, whatever
the width, and no division has been evaluated when it is returned. -/
theorem zero_height_other (width : Int) (rest : List Stream) :
    (classifyGeometry width 0).label = "other" ∧
      (classifyGeometry width 0).divisions = [] ∧
      getVideoAspectRatio (ProbeResult.decoded ⟨⟨width, 0⟩ :: rest⟩) = Except.ok "other" := by
  simp [getVideoAspectRatio, classifyGeometry]

theorem rnd_lower_edge : rnd (151 / 90) = 7556039374810499 / 2 ^ 52 := by decide!

theorem rnd_upper_edge : rnd (169 / 90) = 8456759300284598 / 2 ^ 52 := by decide!

/-- C7 (as stated, refuted): 1164328157858631795 x 693970425213754050 has ratio
exactly 151/90 and 11892317766025723 x 6333186975990030 has ratio exactly
169/90, all four fit a 64-bit `int`, and both are classified `other`. -/
theorem edge_ratio_large_is_other :
    ((1164328157858631795 : ℚ) / 693970425213754050 = 151 / 90 ∧
        (1164328157858631795 : Int) < 2 ^ 63 ∧
        (classifyGeometry 1164328157858631795 693970425213754050).label = "other") ∧
      ((11892317766025723 : ℚ) / 6333186975990030 = 169 / 90 ∧
        (11892317766025723 : Int) < 2 ^ 63 ∧
        (classifyGeometry 11892317766025723 6333186975990030).label = "other") :=
  ⟨⟨by norm_num, by norm_num, by decide!⟩, ⟨by norm_num, by norm_num, by decide!⟩⟩

/-- C7 (amended): when the width is below 2^53, so that width and height
convert to `float64` exactly, a ratio of exactly 151/90 (the lower edge
16/9 - 0.1) and a ratio of exactly 169/90 (the upper edge 16/9 + 0.1) are both
classified `landscape`. -/
theorem edge_ratio_landscape (width height : Int) (hh : 0 < height) (hw : width < 2 ^ 53)
    (hedge : width * 90 = height * 151 ∨ width * 90 = height * 169) :
    (classifyGeometry width height).label = "landscape" := by
  have hwpos : 0 < width := by rcases hedge with h | h <;> omega
  have hhlt : height < 2 ^ 53 := by rcases hedge with h | h <;> omega
  have hW : (0 : ℚ) < width := by exact_mod_cast hwpos
  have hH : (0 : ℚ) < height := by exact_mod_cast hh
  have ew := rnd_intCast_of_nonneg width hwpos.le hw
  have eh := rnd_intCast_of_nonneg height hh.le hhlt
  have hratio : rnd ((width : ℚ) / height) = 7556039374810499 / 2 ^ 52
      ∨ rnd ((width : ℚ) / height) = 8456759300284598 / 2 ^ 52 := by
    rcases hedge with h | h
    · left
      have hq : (width : ℚ) * 90 = height * 151 := by exact_mod_cast h
      have : (width : ℚ) / height = 151 / 90 := by
        field_simp
        linarith
      rw [this, rnd_lower_edge]
    · right
      have hq : (width : ℚ) * 90 = height * 169 := by exact_mod_cast h
      have : (width : ℚ) / height = 169 / 90 := by
        field_simp
        linarith
      rw [this, rnd_upper_edge]
  have hz := classifyGeometry_of_ratio width height (by rw [ew]; exact hW.ne')
    (by rw [eh]; exact hH.ne') hh.ne'
  rw [ew, eh] at hz
  rcases hratio with hr | hr
  · rw [hz (by rw [hr]; norm_num), hr, if_pos (by norm_num [loQ, hiQ])]
  · rw [hz (by rw [hr]; norm_num), hr, if_pos (by norm_num [loQ, hiQ])]

/-- The frame 151 x 90 sits on the lower edge and is `landscape`. -/
theorem edge_ratio_landscape_witness : (classifyGeometry 151 90).label = "landscape" :=
  edge_ratio_landscape 151 90 (by decide) (by decide) (Or.inl (by decide))

/-- C10 (the code departs from the claim): with an audio stream, decoded as
0 x 0, reported before the 1920 x 1080 video stream, `getVideoAspectRatio`
classifies the audio stream and answers `other`; the video stream's own
geometry is `landscape`. -/
theorem audio_stream_first_is_other :
    getVideoAspectRatio (ProbeResult.decoded ⟨[⟨0, 0⟩, ⟨1920, 1080⟩]⟩) = Except.ok "other" ∧
      (classifyGeometry 1920 1080).label = "landscape" :=
  ⟨by simp [getVideoAspectRatio, classifyGeometry], by decide!⟩


/-- The frame 0 x 1: the reciprocal `1.0 / aspectRatio` is evaluated with a
zero divisor and the `float64` quotient is +Inf. -/
theorem reciprocal_divides_by_zero :
    (classifyGeometry 0 1).divisions
        = [(F64.fin 0, F64.fin 1), (F64.fin 1, F64.fin 0), (F64.fin 1, F64.fin 0)] ∧
      F64.isZero (F64.fin 0) = true ∧
      F64.div (F64.fin 1) (F64.fin 0) = F64.inf false :=
  ⟨by decide!, by decide!, by decide!⟩

theorem isZero_fin (q : ℚ) (hq : q ≠ 0) : F64.isZero (F64.fin q) = false := by
  simp [F64.isZero, hq]

theorem ofInt_zero : F64.ofInt 0 = F64.fin 0 := by
  simp [F64.ofInt, rnd]

theorem div_zero_fin (b : ℚ) (hb : 0 < b) : F64.div (F64.fin 0) (F64.fin b) = F64.fin 0 := by
  simp [F64.div, F64.val, hb.ne', F64.signedZero, F64.isNeg, not_lt.mpr hb.le]

theorem label_cases (width height : Int) :
    (classifyGeometry width height).label = "landscape" ∨
      (classifyGeometry width height).label = "portrait" ∨
      (classifyGeometry width height).label = "other" := by
  unfold classifyGeometry
  simp only []
  split_ifs <;> simp

theorem divisions_cases (width height : Int) :
    ∀ d ∈ (classifyGeometry width height).divisions,
      d = (F64.ofInt width, F64.ofInt height) ∨
        d = (one, F64.div (F64.ofInt width) (F64.ofInt height)) := by
  unfold classifyGeometry
  simp only []
  split_ifs <;> simp

/-- C8: the geometry classification is total over all non-negative width and
height: it returns one of `landscape`, `portrait`, `other` and
`getVideoAspectRatio` returns it with no error; the division by the height is
never evaluated when the height is 0; a zero divisor occurs only in the
reciprocal `1.0 / aspectRatio` at width 0, where the `float64` quotient is
+Inf, nothing faults, and the result is `other`. -/
theorem classifyGeometry_total (width height : Int) (hw : 0 ≤ width) (hh : 0 ≤ height) :
    ((classifyGeometry width height).label = "landscape" ∨
        (classifyGeometry width height).label = "portrait" ∨
        (classifyGeometry width height).label = "other") ∧
      (∀ rest, getVideoAspectRatio (ProbeResult.decoded ⟨⟨width, height⟩ :: rest⟩)
        = Except.ok (classifyGeometry width height).label) ∧
      (height = 0 → (classifyGeometry width height).divisions = []) ∧
      (∀ d ∈ (classifyGeometry width height).divisions,
        F64.isZero d.2 = true → width = 0 ∧ d = (one, F64.fin 0)) ∧
      (width = 0 → 0 < height →
        (classifyGeometry width height).label = "other" ∧
          F64.div one (F64.div (F64.ofInt width) (F64.ofInt height)) = F64.inf false) := by
  refine ⟨label_cases width height, fun rest => rfl, ?_, ?_, ?_⟩
  · intro h0
    simp [classifyGeometry, h0]
  · rcases eq_or_lt_of_le hh with h0 | hpos
    · simp [classifyGeometry, ← h0]
    have hH : (0 : ℚ) < height := by exact_mod_cast hpos
    have hb := rnd_pos _ hH
    have hbz : F64.isZero (F64.ofInt height) = false := isZero_fin _ hb.ne'
    intro d hd hz
    rcases eq_or_lt_of_le hw with w0 | wpos
    · subst w0
      have hdiv : F64.div (F64.ofInt 0) (F64.ofInt height) = F64.fin 0 := by
        rw [ofInt_zero]
        exact div_zero_fin _ hb
      rcases divisions_cases 0 height d hd with rfl | rfl
      · rw [hbz] at hz
        exact absurd hz (by simp)
      · rw [hdiv]
        exact ⟨rfl, rfl⟩
    · have hW : (0 : ℚ) < width := by exact_mod_cast wpos
      have ha := rnd_pos _ hW
      have hr := rnd_pos _ (div_pos ha hb)
      have hdiv : F64.div (F64.ofInt width) (F64.ofInt height)
          = F64.fin (rnd (rnd (width : ℚ) / rnd (height : ℚ))) := div_fin_fin _ _ ha.ne' hb.ne'
      have hrz := isZero_fin _ hr.ne'
      rcases divisions_cases width height d hd with rfl | rfl
      · rw [hbz] at hz
        exact absurd hz (by simp)
      · simp only [hdiv, hrz] at hz
        exact absurd hz (by simp)
  · intro w0 hpos
    subst w0
    have hH : (0 : ℚ) < height := by exact_mod_cast hpos
    have hb := rnd_pos _ hH
    have hdiv : F64.div (F64.ofInt 0) (F64.ofInt height) = F64.fin 0 := by
      rw [ofInt_zero]
      exact div_zero_fin _ hb
    have hinv : F64.div one (F64.fin 0) = F64.inf false := by
      rw [one_eq]; decide!
    refine ⟨?_, by rw [hdiv, hinv]⟩
    unfold classifyGeometry
    simp only []
    rw [if_neg hpos.ne', hdiv, hinv, lower_threshold, upper_threshold]
    simp only [F64.ge, F64.le, F64.val, loQ]
    rw [if_neg (by norm_num)]
    simp

/-- The frame 0 x 5: the reciprocal is +Inf and the result is `other`. -/
theorem classifyGeometry_total_witness :
    ((classifyGeometry 0 5).label = "landscape" ∨ (classifyGeometry 0 5).label = "portrait" ∨
        (classifyGeometry 0 5).label = "other") ∧
      (classifyGeometry 0 5).label = "other" ∧
      F64.div one (F64.div (F64.ofInt 0) (F64.ofInt 5)) = F64.inf false :=
  have h := classifyGeometry_total 0 5 (by decide) (by decide)
  ⟨h.1, h.2.2.2.2 rfl (by decide)⟩

/-! ## Storage key -/

/-- The unpadded encoding of `n` bytes has ⌈4n/3⌉ characters. -/
theorem rawURLEncode_length (l : List Nat) :
    (rawURLEncode l).length = (4 * l.length + 2) / 3 := by
  induction l using rawURLEncode.induct with
  | case1 => simp [rawURLEncode]
  | case2 a => simp [rawURLEncode]
  | case3 a b => simp [rawURLEncode]
  | case4 a b c rest ih =>
    simp only [rawURLEncode, List.length_cons, ih]
    omega

/-- A successful `rand.Read` leaves a buffer of the length it was given. -/
theorem randReadInto_length (b : List Nat) (source : Option (List Nat)) (randomBytes : List Nat)
    (h : randReadInto b source = some randomBytes) : randomBytes.length = b.length := by
  unfold randReadInto at h
  split at h
  · simp at h
  · split at h
    · simp at h
    · rename_i bytes hlt
      simp only [Option.some.injEq] at h
      rw [← h, List.length_take]
      omega

theorem fileKeyBase_length (randomBytes : List Nat) (h : randomBytes.length = 32) :
    (fileKeyBase randomBytes).length = 43 := by
  unfold fileKeyBase
  rw [String.length_mk, rawURLEncode_length, h]

theorem checkMediaType_code (parse : String → Option String) (m : String) (code : Nat)
    (msg : String) (h : checkMediaType parse m = some (code, msg)) : code = StatusBadRequest := by
  unfold checkMediaType at h
  split at h
  · simp at h; exact h.1.symm
  · split at h
    · simp at h; exact h.1.symm
    · simp at h

/-- A run answering 200 has put the object under the derived key and returns the
record with the delivery URL. -/
theorem uploadFromStaging_ok (cfg : Config) (env : Env) (fs0 : List String) (video : Video)
    (mediaType : String)
    (hok : (uploadFromStaging cfg env ⟨fs0, []⟩ video mediaType).status = StatusOK) :
    ∃ c randomBytes, getVideoAspectRatio env.probe = Except.ok c ∧
      randReadInto (makeBytes 32) env.randRead = some randomBytes ∧
      Event.putObject cfg.s3Bucket (fileKey c randomBytes) mediaType true
        ∈ (uploadFromStaging cfg env ⟨fs0, []⟩ video mediaType).world.trace ∧
      (uploadFromStaging cfg env ⟨fs0, []⟩ video mediaType).body
        = Body.video { video with VideoURL := some (videoURL cfg (fileKey c randomBytes)) } := by
  unfold uploadFromStaging at hok ⊢
  have hne : StatusInternalServerError ≠ StatusOK := by decide
  cases hct : env.createTemp with
  | none =>
    rw [hct] at hok
    exact absurd hok hne
  | some tempName =>
    rw [hct] at hok
    simp only [processVideoForFastStart] at hok ⊢
    cases hc : env.copyOK
    · rw [hc] at hok
      exact absurd hok hne
    cases hs : env.tempSeekOK
    · rw [hc, hs] at hok
      exact absurd hok hne
    cases hff : env.ffmpegOK
    · rw [hc, hs, hff] at hok
      exact absurd hok hne
    simp only [hc, hs, hff, Bool.not_true, Bool.false_eq_true, if_false, if_true] at hok ⊢
    generalize (World.fileExists _ _ && env.openOK) = opened at hok ⊢
    cases opened
    · exact absurd hok hne
    simp only [Bool.not_true, Bool.false_eq_true, if_false] at hok ⊢
    cases hp : getVideoAspectRatio env.probe with
    | error e =>
      rw [hp] at hok
      exact absurd hok hne
    | ok c =>
      cases hr : randReadInto (makeBytes 32) env.randRead with
      | none =>
        rw [hp, hr] at hok
        exact absurd hok hne
      | some randomBytes =>
        rw [hp, hr] at hok
        simp only [] at hok ⊢
        cases hput : env.putObjectOK
        · rw [hput] at hok
          exact absurd hok hne
        cases hupd : env.updateVideoOK
        · rw [hput, hupd] at hok
          exact absurd hok hne
        refine ⟨c, randomBytes, rfl, rfl, ?_, ?_⟩
        · simp [respondWithJSON, runDeferred, World.log, World.remove, World.addFile]
        · simp [respondWithJSON]


/-- A run that returns before staging leaves the world untouched and does not
answer 200. -/
theorem handlerUploadVideo_status_cases (cfg : Config) (env : Env) (r : Request) (w0 : World) :
    ((handlerUploadVideo cfg env r w0).world = w0 ∧
        (handlerUploadVideo cfg env r w0).status ≠ StatusOK) ∨
      ∃ video mediaType,
        handlerUploadVideo cfg env r w0 = uploadFromStaging cfg env w0 video mediaType := by
  unfold handlerUploadVideo
  dsimp only
  repeat' split
  all_goals first
    | exact Or.inr ⟨_, _, rfl⟩
    | (left
       simp [respondWithError, runDeferred, StatusOK, StatusBadRequest, StatusUnauthorized,
         StatusInternalServerError]
       done)
    | (left
       rename_i heq
       have hcode := checkMediaType_code _ _ _ _ heq
       subst hcode
       simp [respondWithError, runDeferred, StatusOK, StatusBadRequest])

theorem getVideoAspectRatio_ok (probe : ProbeResult) (c : String)
    (h : getVideoAspectRatio probe = Except.ok c) :
    c = "landscape" ∨ c = "portrait" ∨ c = "other" := by
  unfold getVideoAspectRatio at h
  split at h
  · simp at h
  · simp at h
  · split at h
    · simp at h
    · simp only [Except.ok.injEq] at h
      rw [← h]
      exact label_cases _ _

/-- C9 (as stated, refuted): the successful run with geometry 1920 x 1080 and
the 32 random bytes 251, 255, 190, 11, ... puts the object under `landscape/`,
the token and `.mp4`, and the token has 43 characters, not 22. -/
theorem sample_token_length :
    (handlerUploadVideo sampleConfig variedBytesEnv ownerRequest emptyWorld).status = StatusOK ∧
      Event.putObject "tubely"
          ("landscape" ++ "/" ++ "-_--CzBVep_E6Q4zWH2ix-wRNluApcrvFDleg6jN8hc" ++ ".mp4")
          "video/mp4" true
        ∈ (handlerUploadVideo sampleConfig variedBytesEnv ownerRequest emptyWorld).world.trace ∧
      ("-_--CzBVep_E6Q4zWH2ix-wRNluApcrvFDleg6jN8hc" : String).length = 43 ∧
      ("-_--CzBVep_E6Q4zWH2ix-wRNluApcrvFDleg6jN8hc" : String).length ≠ 22 :=
  ⟨by decide!, by decide!, by decide, by decide⟩

/-- C9 (amended): in every successful upload the object is put under the key
made of the classification `c` (one of `landscape`, `portrait`, `other`), then
`/`, then the token, then `.mp4`, where the token is the unpadded URL-safe
base64 encoding of the 32 bytes `rand.Read` put into the 32-byte buffer and is
exactly 43 characters long. -/
theorem storage_key_shape (cfg : Config) (env : Env) (r : Request) (fs0 : List String)
    (hok : (handlerUploadVideo cfg env r ⟨fs0, []⟩).status = StatusOK) :
    ∃ c randomBytes contentType,
      getVideoAspectRatio env.probe = Except.ok c ∧
      (c = "landscape" ∨ c = "portrait" ∨ c = "other") ∧
      randReadInto (makeBytes 32) env.randRead = some randomBytes ∧
      randomBytes.length = 32 ∧
      Event.putObject cfg.s3Bucket (c ++ "/" ++ String.mk (rawURLEncode randomBytes) ++ ".mp4")
          contentType true
        ∈ (handlerUploadVideo cfg env r ⟨fs0, []⟩).world.trace ∧
      (String.mk (rawURLEncode randomBytes)).length = 43 := by
  rcases handlerUploadVideo_status_cases cfg env r ⟨fs0, []⟩ with ⟨-, hne⟩ | ⟨video, mediaType, h0⟩
  · exact absurd hok hne
  · rw [h0] at hok ⊢
    obtain ⟨c, randomBytes, hc, hr, hmem, -⟩ := uploadFromStaging_ok cfg env fs0 video mediaType hok
    have hlen : randomBytes.length = 32 := by
      rw [randReadInto_length _ _ _ hr]
      simp [makeBytes]
    exact ⟨c, randomBytes, mediaType, hc, getVideoAspectRatio_ok _ _ hc, hr, hlen, hmem,
      fileKeyBase_length randomBytes hlen⟩

/-- The successful run with the varied random bytes: the key is `landscape/`,
43 characters, `.mp4`. -/
theorem storage_key_shape_witness :
    ∃ c randomBytes contentType,
      getVideoAspectRatio variedBytesEnv.probe = Except.ok c ∧
      (c = "landscape" ∨ c = "portrait" ∨ c = "other") ∧
      randReadInto (makeBytes 32) variedBytesEnv.randRead = some randomBytes ∧
      randomBytes.length = 32 ∧
      Event.putObject sampleConfig.s3Bucket
          (c ++ "/" ++ String.mk (rawURLEncode randomBytes) ++ ".mp4") contentType true
        ∈ (handlerUploadVideo sampleConfig variedBytesEnv ownerRequest ⟨[], []⟩).world.trace ∧
      (String.mk (rawURLEncode randomBytes)).length = 43 :=
  storage_key_shape sampleConfig variedBytesEnv ownerRequest [] (by decide!)

/-! ## Probe reporting no stream -/

/-- When the probe step fails, the staging part of the handler neither puts an
object nor updates the record, and if the probe was run the answer is 500. -/
theorem uploadFromStaging_probe_error (cfg : Config) (env : Env) (fs0 : List String)
    (video : Video) (mediaType e : String)
    (hgv : getVideoAspectRatio env.probe = Except.error e) :
    (∀ bucket key contentType ok, Event.putObject bucket key contentType ok
        ∉ (uploadFromStaging cfg env ⟨fs0, []⟩ video mediaType).world.trace) ∧
      (∀ v ok, Event.updateVideo v ok
        ∉ (uploadFromStaging cfg env ⟨fs0, []⟩ video mediaType).world.trace) ∧
      (∀ path, Event.probe path ∈ (uploadFromStaging cfg env ⟨fs0, []⟩ video mediaType).world.trace →
        (uploadFromStaging cfg env ⟨fs0, []⟩ video mediaType).status = StatusInternalServerError ∧
          (uploadFromStaging cfg env ⟨fs0, []⟩ video mediaType).body
            = Body.error "Failed to determine aspect ratio") := by
  unfold uploadFromStaging
  simp only [hgv, processVideoForFastStart]
  cases env.createTemp with
  | none => simp [respondWithError, runDeferred, World.log]
  | some tempName =>
    cases env.ffmpegOK <;> simp only [Bool.false_eq_true, if_false, if_true]
    all_goals repeat' split
    all_goals
      simp [respondWithError, runDeferred, World.log, World.addFile, World.remove]


/-- C11: given that the probe ran and its output decoded, `getVideoAspectRatio`
returns an error exactly when the decoded output has zero streams, and the
error is then "no video streams found" (an error result carries no
classification).  In `handlerUploadVideo` a probe answer with zero streams
means no object is put and the record is not updated, and every run that gets
to the probe answers 500. -/
theorem no_streams_error (cfg : Config) (env : Env) (r : Request) (fs0 : List String)
    (result : FFProbeOutput) (hprobe : env.probe = ProbeResult.decoded result) :
    ((∃ e, getVideoAspectRatio env.probe = Except.error e) ↔ result.Streams = []) ∧
      (result.Streams = [] →
        getVideoAspectRatio env.probe = Except.error "no video streams found" ∧
        (∀ bucket key contentType ok, Event.putObject bucket key contentType ok
          ∉ (handlerUploadVideo cfg env r ⟨fs0, []⟩).world.trace) ∧
        (∀ v ok, Event.updateVideo v ok
          ∉ (handlerUploadVideo cfg env r ⟨fs0, []⟩).world.trace) ∧
        (∀ path, Event.probe path ∈ (handlerUploadVideo cfg env r ⟨fs0, []⟩).world.trace →
          (handlerUploadVideo cfg env r ⟨fs0, []⟩).status = StatusInternalServerError ∧
            (handlerUploadVideo cfg env r ⟨fs0, []⟩).body
              = Body.error "Failed to determine aspect ratio")) := by
  have hiff : (∃ e, getVideoAspectRatio env.probe = Except.error e) ↔ result.Streams = [] := by
    rw [hprobe]
    unfold getVideoAspectRatio
    cases hs : result.Streams with
    | nil => simp [hs]
    | cons s rest => simp [hs]
  refine ⟨hiff, fun h0 => ?_⟩
  have hgv : getVideoAspectRatio env.probe = Except.error "no video streams found" := by
    rw [hprobe]
    unfold getVideoAspectRatio
    simp [h0]
  refine ⟨hgv, ?_⟩
  rcases handlerUploadVideo_cases cfg env r ⟨fs0, []⟩ with hw | ⟨video, mediaType, hrun⟩
  · rw [hw]
    simp
  · rw [hrun]
    exact uploadFromStaging_probe_error cfg env fs0 video mediaType _ hgv

/-- The sample run with a probe that reports no stream: the probe is reached,
the answer is 500 and the log has neither a put nor an update. -/
theorem no_streams_error_witness :
    getVideoAspectRatio noStreamsEnv.probe = Except.error "no video streams found" ∧
      (∀ bucket key contentType ok, Event.putObject bucket key contentType ok
        ∉ (handlerUploadVideo sampleConfig noStreamsEnv ownerRequest ⟨[], []⟩).world.trace) ∧
      (∀ v ok, Event.updateVideo v ok
        ∉ (handlerUploadVideo sampleConfig noStreamsEnv ownerRequest ⟨[], []⟩).world.trace) ∧
      (handlerUploadVideo sampleConfig noStreamsEnv ownerRequest ⟨[], []⟩).status
        = StatusInternalServerError ∧
      (handlerUploadVideo sampleConfig noStreamsEnv ownerRequest ⟨[], []⟩).body
        = Body.error "Failed to determine aspect ratio" :=
  have h := (no_streams_error sampleConfig noStreamsEnv ownerRequest [] ⟨[]⟩ rfl).2 rfl
  ⟨h.1, h.2.1, h.2.2.1,
    h.2.2.2 "/tmp/tubely-upload-1.mp4.processing" (by decide)⟩

/-! ## Round trip between upload and delete -/

/-- Splitting always yields at least one piece. -/
theorem splitChar_ne_nil (sep : Char) (l : List Char) : splitChar sep l ≠ [] := by
  cases l with
  | nil => simp [splitChar]
  | cons c cs =>
    unfold splitChar
    split
    · simp
    · split <;> simp

/-- A text without the separator at its front: the first piece is that text. -/
theorem splitChar_append_sep (sep : Char) (a b : List Char) (ha : sep ∉ a) :
    splitChar sep (a ++ sep :: b) = a :: splitChar sep b := by
  induction a with
  | nil => simp [splitChar]
  | cons c cs ih =>
    have hc : c ≠ sep := fun h => ha (by simp [h])
    have hcs : sep ∉ cs := fun h => ha (List.mem_cons_of_mem _ h)
    show splitChar sep (c :: (cs ++ sep :: b)) = (c :: cs) :: splitChar sep b
    rw [splitChar, if_neg hc, ih hcs]

/-- Joining the pieces of a text with the separator gives the text back. -/
theorem stringsJoin_split (l : List Char) :
    stringsJoin ((splitChar '/' l).map String.mk) "/" = String.mk l := by
  induction l with
  | nil => simp [splitChar, stringsJoin]
  | cons c cs ih =>
    obtain ⟨p, ps, hps⟩ := List.exists_cons_of_ne_nil (splitChar_ne_nil '/' cs)
    rw [hps] at ih
    unfold splitChar
    by_cases hc : c = '/'
    · rw [if_pos hc, hps]
      simp only [List.map_cons, stringsJoin] at ih ⊢
      rw [ih]
      apply String.ext
      simp [hc]
    · rw [if_neg hc, hps]
      cases ps with
      | nil =>
        simp only [List.map_cons, List.map_nil, stringsJoin] at ih ⊢
        have hp : p = cs := by
          have := congrArg String.data ih
          simpa using this
        rw [hp]
      | cons q qs =>
        simp only [List.map_cons, stringsJoin] at ih ⊢
        have hd := congrArg String.data ih
        apply String.ext
        simp only [String.data_append] at hd ⊢
        simp only [List.cons_append, List.append_assoc] at hd ⊢
        rw [hd]


/-- The delete handler recovers the key from a delivery URL whose domain has no
`/`, whatever the key is. -/
theorem deleteObjectKey_url (domain key : String) (hslash : '/' ∉ domain.data) :
    deleteObjectKey (some ("https://" ++ domain ++ "/" ++ key)) = some key := by
  have hdata : ("https://" ++ domain ++ "/" ++ key).data
      = ['h', 't', 't', 'p', 's', ':'] ++ '/' :: ([] ++ '/' :: (domain.data ++ '/' :: key.data)) := by
    simp [String.data_append]
  have hne : "https://" ++ domain ++ "/" ++ key ≠ "" := by
    intro h
    have := congrArg String.data h
    rw [hdata] at this
    simp at this
  have hsplit : stringsSplit ("https://" ++ domain ++ "/" ++ key) '/'
      = "https:" :: "" :: domain :: (splitChar '/' key.data).map String.mk := by
    unfold stringsSplit
    rw [hdata, splitChar_append_sep _ _ _ (by decide), splitChar_append_sep _ _ _ (by simp),
      splitChar_append_sep _ _ _ hslash]
    rfl
  obtain ⟨p, ps, hps⟩ := List.exists_cons_of_ne_nil (splitChar_ne_nil '/' key.data)
  have hjoin := stringsJoin_split key.data
  unfold deleteObjectKey
  simp only [hne, ne_eq, not_false_eq_true, if_true, hsplit]
  rw [hps] at hjoin ⊢
  simp only [List.map_cons, List.length_cons, List.drop_succ_cons, List.drop_zero]
  rw [if_pos (by omega)]
  simp only [List.map_cons] at hjoin
  rw [hjoin]

/-- C12: for every delivery domain without `/` (the non-empty ones among them)
and every key, the key `handlerVideoMetaDelete` extracts from
`https://<domain>/<key>` is that key; so after every successful upload the key
extracted from the stored `VideoURL` is the key the object was put under. -/
theorem delete_key_round_trip (cfg : Config) (env : Env) (r : Request) (fs0 : List String)
    (hslash : '/' ∉ cfg.cloudFrontDomain.data)
    (hok : (handlerUploadVideo cfg env r ⟨fs0, []⟩).status = StatusOK) :
    (∀ key, deleteObjectKey (some ("https://" ++ cfg.cloudFrontDomain ++ "/" ++ key)) = some key) ∧
      ∃ key contentType v,
        Event.putObject cfg.s3Bucket key contentType true
          ∈ (handlerUploadVideo cfg env r ⟨fs0, []⟩).world.trace ∧
        (handlerUploadVideo cfg env r ⟨fs0, []⟩).body = Body.video v ∧
        v.VideoURL = some ("https://" ++ cfg.cloudFrontDomain ++ "/" ++ key) ∧
        deleteObjectKey v.VideoURL = some key := by
  refine ⟨fun key => deleteObjectKey_url _ key hslash, ?_⟩
  rcases handlerUploadVideo_status_cases cfg env r ⟨fs0, []⟩ with ⟨-, hne⟩ | ⟨video, mediaType, h0⟩
  · exact absurd hok hne
  · rw [h0] at hok ⊢
    obtain ⟨c, randomBytes, -, -, hmem, hbody⟩ :=
      uploadFromStaging_ok cfg env fs0 video mediaType hok
    exact ⟨fileKey c randomBytes, mediaType, _, hmem, hbody, rfl,
      deleteObjectKey_url _ _ hslash⟩

/-- The successful sample run with the domain `d1.example.net`. -/
theorem delete_key_round_trip_witness :
    ∃ key contentType v,
      Event.putObject sampleConfig.s3Bucket key contentType true
        ∈ (handlerUploadVideo sampleConfig sampleEnv ownerRequest ⟨[], []⟩).world.trace ∧
      (handlerUploadVideo sampleConfig sampleEnv ownerRequest ⟨[], []⟩).body = Body.video v ∧
      v.VideoURL = some ("https://" ++ sampleConfig.cloudFrontDomain ++ "/" ++ key) ∧
      deleteObjectKey v.VideoURL = some key :=
  (delete_key_round_trip sampleConfig sampleEnv ownerRequest [] (by decide) (by decide!)).2

end Tubely
